import Mathlib

/-!
Verification development for the xlayer-402 settlement-and-swap pipeline.

The definitions below are a shallow embedding of the TypeScript sources:
  - `src/lib/dex/types.ts`   : error codes and config records
  - `src/lib/dex/errors.ts`  : `DexSwapError` and friendly messages
  - `src/lib/dex/retry.ts`   : `SmartRetryManager` and `CircuitBreaker`
  - `src/lib/dex/cache.ts`   : `SmartCacheManager`
  - `src/routes/x402.ts`     : the `/verify` settlement pipeline over Redis
  - `src/lib/dex/DexSwapService.ts` : `executeSwap`

JavaScript numbers are modelled as `Nat` (all relevant values are
non-negative integers: millisecond timestamps, counters, attempt numbers).
Logging, metrics bookkeeping and real sleeping are side effects with no
influence on the values the specification talks about and are omitted.
-/

/-! ### Error model (`types.ts` enum `SwapErrorCode`, `errors.ts` `DexSwapError`) -/

/-- The `SwapErrorCode` string enum from `src/lib/dex/types.ts`. -/
inductive SwapErrorCode
  | INSUFFICIENT_BALANCE
  | INSUFFICIENT_ALLOWANCE
  | SLIPPAGE_EXCEEDED
  | DEADLINE_EXCEEDED
  | LIQUIDITY_INSUFFICIENT
  | PRICE_IMPACT_TOO_HIGH
  | NETWORK_ERROR
  | API_ERROR
  | GAS_ESTIMATION_FAILED
  | TRANSACTION_FAILED
  | INVALID_PARAMETERS
  | UNKNOWN_ERROR
deriving DecidableEq

/-- `DexSwapError` (`errors.ts`): code plus human-readable message.
`details`, `suggestions`, `timestamp` and `recoverable` carry no logic
used by the claims and are omitted. -/
structure DexSwapError where
  code : SwapErrorCode
  message : String
deriving DecidableEq

/-- `DexSwapError.toUserFriendly` (`errors.ts`): switch over the code. -/
def DexSwapError.toUserFriendly (e : DexSwapError) : String :=
  match e.code with
  | SwapErrorCode.INSUFFICIENT_BALANCE => "余额不足，请检查账户余额"
  | SwapErrorCode.INSUFFICIENT_ALLOWANCE => "代币授权不足，需要先进行代币授权"
  | SwapErrorCode.SLIPPAGE_EXCEEDED => "滑点过大，请增加滑点容忍度或稍后重试"
  | SwapErrorCode.DEADLINE_EXCEEDED => "交易超时，请稍后重试"
  | SwapErrorCode.LIQUIDITY_INSUFFICIENT => "流动性不足，无法完成交换"
  | SwapErrorCode.PRICE_IMPACT_TOO_HIGH => "价格影响过大，建议减少交换数量"
  | SwapErrorCode.NETWORK_ERROR => "网络连接错误，请检查网络连接"
  | SwapErrorCode.GAS_ESTIMATION_FAILED => "Gas估算失败，请稍后重试"
  | SwapErrorCode.TRANSACTION_FAILED => "交易执行失败，请查看详细信息"
  | _ => if e.message = "" then "未知错误" else e.message

/-- A thrown JavaScript error as seen by the retry engine: either a typed
`DexSwapError` or a plain `Error` carrying only a message. -/
inductive JsError
  | dex (e : DexSwapError)
  | generic (message : String)
deriving DecidableEq

/-- The `.message` property of a thrown error. -/
def JsError.message : JsError → String
  | JsError.dex e => e.message
  | JsError.generic m => m

/-- JavaScript `String.prototype.includes` for non-empty needles:
`sub` occurs in `s` iff splitting on it produces more than one piece. -/
def strContains (s sub : String) : Bool :=
  (s.splitOn sub).length > 1

/-! ### Retry engine (`retry.ts`, `SmartRetryManager`) -/

/-- `RetryConfig` from `types.ts`. `backoffMs`/`backoffMultiplier` feed only
the delay computation, which has no bearing on outcomes or attempt counts. -/
structure RetryConfig where
  maxAttempts : Nat
  backoffMs : Nat
  backoffMultiplier : Nat
  retryableErrors : List SwapErrorCode
deriving DecidableEq

/-- `SmartRetryManager.isRetryableError` (`retry.ts`): typed errors are
classified by code membership; plain errors by sniffing the lowercased
message for network / API / gas keywords. -/
def isRetryableError (error : JsError) (retryableErrors : List SwapErrorCode) : Bool :=
  match error with
  | JsError.dex e => retryableErrors.contains e.code
  | JsError.generic _ =>
    let message := error.message.toLower
    if strContains message "network" || strContains message "timeout" ||
       strContains message "connection" || strContains message "fetch" then
      retryableErrors.contains SwapErrorCode.NETWORK_ERROR
    else if strContains message "api" || strContains message "500" ||
       strContains message "502" || strContains message "503" ||
       strContains message "504" then
      retryableErrors.contains SwapErrorCode.API_ERROR
    else if strContains message "gas" || strContains message "estimate" then
      retryableErrors.contains SwapErrorCode.GAS_ESTIMATION_FAILED
    else
      false

/-- `RetryResult<T>` from `retry.ts`. `totalDuration` and `lastAttemptAt`
are wall-clock observations and are omitted. On the exhaustion path with
`maxAttempts = 0` the source throws an undefined `lastError`, hence the
`Option` on `error`. -/
structure RetryResult (T : Type) where
  success : Bool
  result : Option T
  error : Option JsError
  attempts : Nat

/-- The `for (attempt = 1; attempt <= maxAttempts; ...)` loop of
`SmartRetryManager.executeAttempts`. The operation is modelled as a
function from the attempt number to that attempt's outcome. `ctxAttempt`
mirrors `context.attempt` (last attempt index actually started) and
`lastError` mirrors the loop's `lastError` variable; falling off the end
of the loop rethrows `lastError`. -/
def executeAttemptsGo {T : Type} (op : Nat → Except JsError T) (cfg : RetryConfig)
    (attempt ctxAttempt : Nat) (lastError : Option JsError) :
    Except (Option JsError) T × Nat :=
  if _h : cfg.maxAttempts < attempt then
    (Except.error lastError, ctxAttempt)
  else
    match op attempt with
    | Except.ok v => (Except.ok v, attempt)
    | Except.error e =>
      if isRetryableError e cfg.retryableErrors then
        executeAttemptsGo op cfg (attempt + 1) attempt (some e)
      else
        (Except.error (some e), attempt)
termination_by cfg.maxAttempts + 1 - attempt
decreasing_by omega

/-- `SmartRetryManager.executeWithRetry`: wraps the attempt loop and turns
its outcome (or thrown error) into a `RetryResult`. -/
def executeWithRetry {T : Type} (op : Nat → Except JsError T) (cfg : RetryConfig) :
    RetryResult T :=
  match executeAttemptsGo op cfg 1 0 none with
  | (Except.ok v, n) => { success := true, result := some v, error := none, attempts := n }
  | (Except.error e, n) => { success := false, result := none, error := e, attempts := n }

/-- An attempt outcome that is a failure the configuration classifies as
retryable. -/
def failsRetryably {T : Type} (cfg : RetryConfig) (r : Except JsError T) : Bool :=
  match r with
  | Except.ok _ => false
  | Except.error e => isRetryableError e cfg.retryableErrors

/-! ### Circuit breaker (`retry.ts`, `CircuitBreaker`) -/

/-- The three breaker states of `CircuitBreaker` in `retry.ts`. -/
inductive CBState
  | CLOSED
  | OPEN
  | HALF_OPEN
deriving DecidableEq

/-- The `CircuitBreaker` instance fields together with its constructor
configuration. Defaults mirror `new CircuitBreaker(5, 60000, 2)`. -/
structure CircuitBreaker where
  failureCount : Nat := 0
  successCount : Nat := 0
  lastFailureTime : Nat := 0
  state : CBState := CBState.CLOSED
  failureThreshold : Nat := 5
  recoveryTimeMs : Nat := 60000
  successThreshold : Nat := 2
deriving DecidableEq

/-- `CircuitBreaker.onSuccess`. -/
def CircuitBreaker.onSuccess (cb : CircuitBreaker) : CircuitBreaker :=
  let cb1 := { cb with failureCount := 0 }
  if cb1.state = CBState.HALF_OPEN then
    let cb2 := { cb1 with successCount := cb1.successCount + 1 }
    if cb2.successThreshold ≤ cb2.successCount then
      { cb2 with state := CBState.CLOSED, successCount := 0 }
    else cb2
  else cb1

/-- `CircuitBreaker.onFailure`; `now` is `Date.now()`. -/
def CircuitBreaker.onFailure (cb : CircuitBreaker) (now : Nat) : CircuitBreaker :=
  let cb1 := { cb with failureCount := cb.failureCount + 1,
                       lastFailureTime := now, successCount := 0 }
  if cb1.failureThreshold ≤ cb1.failureCount then
    { cb1 with state := CBState.OPEN }
  else cb1

/-- Result of one `CircuitBreaker.execute` call: either rejected without
running the operation (breaker open), or the operation's own outcome. -/
inductive CBResult (T : Type)
  | rejected (e : DexSwapError)
  | completed (r : Except JsError T)

/-- The body of `execute` after the open-state gate: run the operation,
then update the breaker through `onSuccess`/`onFailure` and propagate. -/
def CircuitBreaker.runOp {T : Type} (cb : CircuitBreaker) (now : Nat)
    (outcome : Except JsError T) : CBResult T × CircuitBreaker :=
  match outcome with
  | Except.ok v => (CBResult.completed (Except.ok v), cb.onSuccess)
  | Except.error e => (CBResult.completed (Except.error e), cb.onFailure now)

/-- `CircuitBreaker.execute`, with the operation's outcome supplied as a
value (`Except.ok` = the awaited operation returned, `Except.error` = it
threw). While OPEN and inside the recovery window the call is rejected
with a synthetic 503 API error; once the window has passed the state
moves to HALF_OPEN and the operation runs. -/
def CircuitBreaker.execute {T : Type} (cb : CircuitBreaker) (now : Nat)
    (outcome : Except JsError T) : CBResult T × CircuitBreaker :=
  if cb.state = CBState.OPEN then
    if now - cb.lastFailureTime < cb.recoveryTimeMs then
      (CBResult.rejected { code := SwapErrorCode.API_ERROR,
                           message := "API错误 (Circuit Breaker) HTTP 503" }, cb)
    else
      CircuitBreaker.runOp { cb with state := CBState.HALF_OPEN } now outcome
  else
    CircuitBreaker.runOp cb now outcome

/-! ### Quote cache (`cache.ts`, `SmartCacheManager`) -/

/-- The `CacheStrategy` enum. -/
inductive CacheStrategy
  | LRU
  | LFU
  | FIFO
  | TTL_ONLY
deriving DecidableEq

/-- `CacheConfig` from `types.ts`, with the constructor defaults. -/
structure CacheConfig where
  quoteTtl : Nat := 30000
  maxSize : Nat := 100
  cleanupInterval : Nat := 60000
deriving DecidableEq

/-- `ExtendedCacheEntry<T>` from `cache.ts`. -/
structure ExtendedCacheEntry (T : Type) where
  key : String
  data : T
  timestamp : Nat
  ttl : Nat
  accessCount : Nat
  lastAccessed : Nat
  createdAt : Nat
deriving DecidableEq

/-- The mutable state of a `SmartCacheManager<T>`: the backing `Map`
(modelled as an insertion-ordered association list, exactly the iteration
order a JS `Map` guarantees), the LRU `accessOrder` array, and the fixed
configuration and strategy. Hit/miss statistics are observational only
and are omitted. -/
structure SmartCacheManager (T : Type) where
  cache : List (String × ExtendedCacheEntry T)
  accessOrder : List String
  config : CacheConfig
  strategy : CacheStrategy
deriving DecidableEq

/-- JS `Map.get`: the value stored at `k` (first — and for a real `Map`
only — binding with that key). -/
def mapGet {T : Type} (m : List (String × T)) (k : String) : Option T :=
  match m with
  | [] => none
  | (k0, v) :: rest => if k0 = k then some v else mapGet rest k

/-- JS `Map.has`. -/
def mapHas {T : Type} (m : List (String × T)) (k : String) : Bool :=
  (mapGet m k).isSome

/-- JS `Map.set`: overwrite in place when the key exists (keeping its
insertion position), otherwise append at the end. -/
def mapSet {T : Type} (m : List (String × T)) (k : String) (v : T) : List (String × T) :=
  match m with
  | [] => [(k, v)]
  | (k0, v0) :: rest => if k0 = k then (k0, v) :: rest else (k0, v0) :: mapSet rest k v

/-- JS `Map.delete` (the resulting map). -/
def mapDelete {T : Type} (m : List (String × T)) (k : String) : List (String × T) :=
  match m with
  | [] => []
  | (k0, v0) :: rest => if k0 = k then rest else (k0, v0) :: mapDelete rest k

/-- `removeFromAccessOrder`: splice out the first occurrence of `key`. -/
def removeFromAccessOrder (order : List String) (key : String) : List String :=
  match order with
  | [] => []
  | k :: rest => if k = key then rest else k :: removeFromAccessOrder rest key

/-- `updateAccessOrder`: move `key` to the most-recently-used end. -/
def updateAccessOrder (order : List String) (key : String) : List String :=
  removeFromAccessOrder order key ++ [key]

/-- The `forEach` minimum scans of `findLeastFrequentlyUsed` /
`findOldestEntry` / `findSoonestToExpire`: walk the map in iteration
order keeping the first strictly-smaller score (the JS code starts from
`Infinity`, so the first entry always becomes the initial candidate). -/
def scanMinByGo {T : Type} (f : ExtendedCacheEntry T → Nat) :
    List (String × ExtendedCacheEntry T) → Option (String × Nat) → Option (String × Nat)
  | [], acc => acc
  | (k, e) :: rest, acc =>
    let acc1 := match acc with
      | none => some (k, f e)
      | some (k0, m0) => if f e < m0 then some (k, f e) else some (k0, m0)
    scanMinByGo f rest acc1

/-- `findLeastFrequentlyUsed` (`cache.ts`): minimal `accessCount`. -/
def findLeastFrequentlyUsed {T : Type} (c : SmartCacheManager T) : Option String :=
  (scanMinByGo (fun e => e.accessCount) c.cache none).map Prod.fst

/-- `findOldestEntry` (`cache.ts`): minimal `createdAt`. -/
def findOldestEntry {T : Type} (c : SmartCacheManager T) : Option String :=
  (scanMinByGo (fun e => e.createdAt) c.cache none).map Prod.fst

/-- `findSoonestToExpire` (`cache.ts`): minimal `timestamp + ttl`. -/
def findSoonestToExpire {T : Type} (c : SmartCacheManager T) : Option String :=
  (scanMinByGo (fun e => e.timestamp + e.ttl) c.cache none).map Prod.fst

/-- `evictEntry` (`cache.ts`): pick a victim per strategy; when one is
found, remove it from the map and the access order. -/
def evictEntry {T : Type} (c : SmartCacheManager T) : SmartCacheManager T :=
  let keyToEvict : Option String :=
    match c.strategy with
    | CacheStrategy.LRU => c.accessOrder.head?
    | CacheStrategy.LFU => findLeastFrequentlyUsed c
    | CacheStrategy.FIFO => findOldestEntry c
    | CacheStrategy.TTL_ONLY => findSoonestToExpire c
  match keyToEvict with
  | some k =>
    { c with cache := mapDelete c.cache k,
             accessOrder := removeFromAccessOrder c.accessOrder k }
  | none => c

/-- `SmartCacheManager.set(key, data, ttl)` at time `now` (`Date.now()`).
If the cache is full and the key is new, evict first; under LRU also
touch the access order; then store the fresh entry. -/
def SmartCacheManager.set {T : Type} (c : SmartCacheManager T)
    (key : String) (data : T) (ttl : Nat) (now : Nat) : SmartCacheManager T :=
  let entry : ExtendedCacheEntry T :=
    { key := key, data := data, timestamp := now, ttl := ttl,
      accessCount := 1, lastAccessed := now, createdAt := now }
  let c1 :=
    if c.config.maxSize ≤ c.cache.length ∧ mapHas c.cache key = false then
      evictEntry c
    else c
  let c2 :=
    if c1.strategy = CacheStrategy.LRU then
      { c1 with accessOrder := updateAccessOrder c1.accessOrder key }
    else c1
  { c2 with cache := mapSet c2.cache key entry }

/-- `SmartCacheManager.get(key)` at time `now`: miss on absence; TTL check
first — an entry with `now - timestamp > ttl` is deleted and reported as
a miss; otherwise bump the access statistics (and LRU order) and return
the data. -/
def SmartCacheManager.get {T : Type} (c : SmartCacheManager T)
    (key : String) (now : Nat) : Option T × SmartCacheManager T :=
  match mapGet c.cache key with
  | none => (none, c)
  | some entry =>
    if entry.ttl < now - entry.timestamp then
      (none, { c with cache := mapDelete c.cache key,
                      accessOrder := removeFromAccessOrder c.accessOrder key })
    else
      let entry1 := { entry with accessCount := entry.accessCount + 1, lastAccessed := now }
      let c1 := { c with cache := mapSet c.cache key entry1 }
      let c2 :=
        if c1.strategy = CacheStrategy.LRU then
          { c1 with accessOrder := updateAccessOrder c1.accessOrder key }
        else c1
      (some entry1.data, c2)

/-- `SmartCacheManager.delete(key)`. -/
def SmartCacheManager.del {T : Type} (c : SmartCacheManager T) (key : String) :
    Bool × SmartCacheManager T :=
  if mapHas c.cache key then
    (true, { c with cache := mapDelete c.cache key,
                    accessOrder := removeFromAccessOrder c.accessOrder key })
  else
    (false, c)

/-- One public mutating cache operation, for stating properties of
arbitrary operation sequences. -/
inductive CacheOp (T : Type)
  | setOp (key : String) (data : T) (ttl : Nat) (now : Nat)
  | getOp (key : String) (now : Nat)
  | delOp (key : String)

/-- Apply one operation (discarding the returned value). -/
def applyCacheOp {T : Type} (c : SmartCacheManager T) : CacheOp T → SmartCacheManager T
  | CacheOp.setOp key data ttl now => c.set key data ttl now
  | CacheOp.getOp key now => (c.get key now).2
  | CacheOp.delOp key => (c.del key).2

/-- A freshly constructed `SmartCacheManager` (empty map, empty order). -/
def SmartCacheManager.empty (T : Type) (config : CacheConfig) (strategy : CacheStrategy) :
    SmartCacheManager T :=
  { cache := [], accessOrder := [], config := config, strategy := strategy }

/-! ### Settlement pipeline (`routes/x402.ts`) -/

/-- `TEMPLATE_CONFIG` hash contents, as written by
`initializeTemplateConfig`. The source stores `max_mint_count` as a
decimal string and `parseInt`s it on every read; it is modelled as the
parsed `Nat`. -/
structure TemplateConfig where
  templateId : String
  maxMintCount : Nat
  tokenName : String
  tokenSymbol : String
  tokenAddress : String
  mintPrice : String
deriving DecidableEq

/-- The payment record stored under `payment:nonce:{nonce}` by
`savePaymentRecord` (the 24h Redis TTL is durability bookkeeping with no
bearing on the claims and is omitted). `value` is the integer token
amount from the authorization. -/
structure PaymentRecord where
  nonce : String
  fromAddress : String
  toAddress : String
  value : Nat
  templateId : String
  createdAt : Nat
  status : String
deriving DecidableEq

/-- The mint record JSON pushed onto `mint:records:{address}` by
`saveMintRecord`. `receivedAmount` keeps the integer amount (the source
divides by 10^6 for display). -/
structure MintRecord where
  id : Nat
  paymentId : Nat
  templateId : String
  userAddress : String
  mintCount : Nat
  txHash : Option String
  receivedAmount : Nat
  errorMessage : Option String
  createdAt : Nat
  status : String
deriving DecidableEq

/-- The fields the `/verify` route passes to `saveMintRecord` (`mintData`).
On the swap-error path it includes `status: 'failed'` and an
`error_message`; on the success path it includes a `tx_hash`. -/
structure MintData where
  paymentId : Nat
  templateId : String
  userAddress : String
  mintCount : Nat
  txHash : Option String
  receivedAmount : Nat
  status : Option String
  errorMessage : Option String
deriving DecidableEq

/-- The Redis keyspace used by the route, one association list per key
family (`KEYS` in `x402.ts`). -/
structure Store where
  counts : List (String × Nat)
  payments : List (String × PaymentRecord)
  mintRecords : List (String × List MintRecord)
  configs : List (String × TemplateConfig)
deriving DecidableEq

/-- `KEYS.MINT_COUNT`. -/
def mintCountKey (templateId : String) : String := "mint:" ++ templateId ++ ":count"

/-- `KEYS.MINT_RECORDS`. -/
def mintRecordsKey (address : String) : String := "mint:records:" ++ address

/-- `KEYS.PAYMENT_NONCE`. -/
def paymentNonceKey (nonce : String) : String := "payment:nonce:" ++ nonce

/-- `KEYS.TEMPLATE_CONFIG`. -/
def templateConfigKey (templateId : String) : String := "template:config:" ++ templateId

/-- `initializeTemplateConfig`: conditionally create the default config
hash (`max_mint_count: '10'`, the x402 token metadata). -/
def initializeTemplateConfig (templateId : String) (σ : Store) : Store :=
  if mapHas σ.configs (templateConfigKey templateId) then σ
  else
    let config : TemplateConfig :=
      { templateId := templateId, maxMintCount := 10,
        tokenName := "x402", tokenSymbol := "X402",
        tokenAddress := "0x74b7f16337b8972027f6196a17a631ac6de26d22",
        mintPrice := "1" }
    { σ with configs := mapSet σ.configs (templateConfigKey templateId) config }

/-- `getCurrentMintCount`: `GET` of the counter key, defaulting to 0. -/
def getCurrentMintCount (templateId : String) (σ : Store) : Nat :=
  (mapGet σ.counts (mintCountKey templateId)).getD 0

/-- `incrementMintCount`: Redis `INCR` — one atomic read-increment-write
returning the post-increment value. -/
def incrementMintCount (templateId : String) (σ : Store) : Nat × Store :=
  let n := (mapGet σ.counts (mintCountKey templateId)).getD 0 + 1
  (n, { σ with counts := mapSet σ.counts (mintCountKey templateId) n })

/-- Result record of `checkMintLimit`. -/
structure LimitCheck where
  canMint : Bool
  remaining : Nat
  isCompleted : Bool
  currentCount : Nat
  maxCount : Nat
deriving DecidableEq

/-- `checkMintLimit`: lazily init the config, read `max_mint_count`
(defaulting to 10 when the hash is missing) and the current counter. -/
def checkMintLimit (templateId : String) (σ : Store) : LimitCheck × Store :=
  let σ1 := initializeTemplateConfig templateId σ
  let maxCount :=
    match mapGet σ1.configs (templateConfigKey templateId) with
    | some cfg => cfg.maxMintCount
    | none => 10
  let currentCount := getCurrentMintCount templateId σ1
  ({ canMint := currentCount < maxCount,
     remaining := maxCount - currentCount,
     isCompleted := maxCount ≤ currentCount,
     currentCount := currentCount,
     maxCount := maxCount }, σ1)

/-- `checkNonceExists`: Redis `EXISTS` on the nonce key. -/
def checkNonceExists (nonce : String) (σ : Store) : Bool :=
  mapHas σ.payments (paymentNonceKey nonce)

/-- `savePaymentRecord`: build the record (`status: 'paid'`) and `SETEX`
it under the nonce key — a plain overwriting write, not create-if-absent. -/
def savePaymentRecord (nonce fromAddress toAddress : String) (value : Nat)
    (templateId : String) (now : Nat) (σ : Store) : PaymentRecord × Store :=
  let recordData : PaymentRecord :=
    { nonce := nonce, fromAddress := fromAddress, toAddress := toAddress,
      value := value, templateId := templateId, createdAt := now, status := "paid" }
  (recordData, { σ with payments := mapSet σ.payments (paymentNonceKey nonce) recordData })

/-- `saveMintRecord`: build the record and `LPUSH` + `LTRIM 0 49` it onto
the user's list. The source spreads `mintData` first and then writes
`created_at` and `status: 'success'`, so a `status` supplied inside
`mintData` (the swap-failure path passes `'failed'`) is overwritten by
the literal `'success'`. -/
def saveMintRecord (address : String) (mintData : MintData) (now : Nat)
    (σ : Store) : MintRecord × Store :=
  let mintRecord : MintRecord :=
    { id := now, paymentId := mintData.paymentId, templateId := mintData.templateId,
      userAddress := mintData.userAddress, mintCount := mintData.mintCount,
      txHash := mintData.txHash, receivedAmount := mintData.receivedAmount,
      errorMessage := mintData.errorMessage, createdAt := now,
      status := "success" }
  let key := mintRecordsKey address
  let oldList := (mapGet σ.mintRecords key).getD []
  let newList := (mintRecord :: oldList).take 50
  (mintRecord, { σ with mintRecords := mapSet σ.mintRecords key newList })

/-- `SwapExecuteResponse` from `types.ts`. -/
structure SwapExecuteResponse where
  success : Bool
  transactionHash : Option String
  explorerUrl : Option String
  fromAmount : String
  toAmount : String
  actualRate : Option String
  gasUsed : Option String
  gasFee : Option String
  errorMessage : Option String
  errorCode : Option SwapErrorCode
deriving DecidableEq

/-- What the swap leg of the route did: `executeSwap` resolved with a
response, or the leg threw (e.g. swap-service construction failed). -/
inductive SwapOutcome
  | returned (resp : SwapExecuteResponse)
  | threw (msg : String)
deriving DecidableEq

/-- One `/verify` request together with the behavior of its external
collaborators: the parsed authorization fields, the settlement provider's
per-attempt outcomes (`okxClient.settle`), whether `X402_PAY_TO` is
configured, the swap leg's outcome, and `Date.now()` for the timestamps
this request generates. -/
structure VerifyCtx where
  nonce : String
  templateId : String
  fromAddress : String
  toAddress : String
  value : Nat
  settleResults : List Bool
  walletConfigured : Bool
  swapOutcome : SwapOutcome
  now : Nat
deriving DecidableEq

/-- The route's possible JSON replies (each constructor carries the data
interpolated into the response body). `mintLimitReached` carries the
current/max counts the 400 message interpolates. -/
inductive VerifyResponse
  | duplicateNonce
  | mintLimitReached (currentCount maxCount : Nat)
  | settlementFailed
  | mintFailed (details : String)
  | ok (paymentRecordId : String) (mintRecord : Option (Nat × Nat × Option String))
deriving DecidableEq

/-- An external side-effecting call made by the pipeline. -/
inductive ExtCall
  | settleProvider
  | dexSwap
deriving DecidableEq

/-- The control points of one in-flight `/verify` request. Each phase
boundary is an `await` of a distinct Redis or network call in the source,
so concurrent requests can interleave at these points. -/
inductive Phase
  | start
  | limitCheck
  | settle
  | savePayment
  | increment
  | doSwap
  | saveMint
  | finished (r : VerifyResponse)
deriving DecidableEq

/-- One atomic step of the `/verify` handler: from a control point,
perform that point's store access / external call and move on. Returns
the new phase, the new store, and the external calls performed. -/
def stepVerify (ctx : VerifyCtx) (ph : Phase) (σ : Store) : Phase × Store × List ExtCall :=
  match ph with
  | Phase.start =>
    if checkNonceExists ctx.nonce σ then
      (Phase.finished VerifyResponse.duplicateNonce, σ, [])
    else if ctx.templateId = "token-mint" then
      (Phase.limitCheck, σ, [])
    else
      (Phase.settle, σ, [])
  | Phase.limitCheck =>
    let (lc, σ1) := checkMintLimit ctx.templateId σ
    if lc.canMint = false ∨ lc.isCompleted then
      (Phase.finished (VerifyResponse.mintLimitReached lc.currentCount lc.maxCount), σ1, [])
    else
      (Phase.settle, σ1, [])
  | Phase.settle =>
    if ctx.settleResults.any (fun b => b) then
      (Phase.savePayment, σ, [ExtCall.settleProvider])
    else
      (Phase.finished VerifyResponse.settlementFailed, σ, [ExtCall.settleProvider])
  | Phase.savePayment =>
    let (_, σ1) := savePaymentRecord ctx.nonce ctx.fromAddress ctx.toAddress
      ctx.value ctx.templateId ctx.now σ
    if ctx.templateId = "token-mint" then
      (Phase.increment, σ1, [])
    else
      (Phase.finished (VerifyResponse.ok ctx.nonce none), σ1, [])
  | Phase.increment =>
    let (_, σ1) := incrementMintCount ctx.templateId σ
    (Phase.doSwap, σ1, [])
  | Phase.doSwap =>
    if ctx.walletConfigured = false then
      (Phase.finished (VerifyResponse.mintFailed "未配置接收钱包地址"), σ, [])
    else
      (Phase.saveMint, σ, [ExtCall.dexSwap])
  | Phase.saveMint =>
    match ctx.swapOutcome with
    | SwapOutcome.returned resp =>
      let (rec, σ1) := saveMintRecord ctx.fromAddress
        { paymentId := ctx.now, templateId := ctx.templateId,
          userAddress := ctx.fromAddress, mintCount := 1,
          txHash := resp.transactionHash, receivedAmount := ctx.value,
          status := none, errorMessage := none } ctx.now σ
      (Phase.finished (VerifyResponse.ok ctx.nonce
        (some (rec.id, rec.mintCount, rec.txHash))), σ1, [])
    | SwapOutcome.threw msg =>
      let (_, σ1) := saveMintRecord ctx.fromAddress
        { paymentId := ctx.now, templateId := ctx.templateId,
          userAddress := ctx.fromAddress, mintCount := 1,
          txHash := none, receivedAmount := ctx.value,
          status := some "failed", errorMessage := some msg } ctx.now σ
      (Phase.finished (VerifyResponse.mintFailed msg), σ1, [])
  | Phase.finished r => (Phase.finished r, σ, [])

/-- Advance one in-flight request by one atomic step, accumulating the
external calls it makes. -/
def stepOnce (ctx : VerifyCtx) (c : Phase × Store × List ExtCall) :
    Phase × Store × List ExtCall :=
  let (ph1, σ1, cs1) := stepVerify ctx c.1 c.2.1
  (ph1, σ1, c.2.2 ++ cs1)

/-- Run one `/verify` request to completion in isolation: the longest
path (`start → limitCheck → settle → savePayment → increment → doSwap →
saveMint → finished`) takes 7 steps, so 8 steps always reach `finished`.
Returns the response (`none` is unreachable), the final store, and the
external calls made. -/
def runVerify (ctx : VerifyCtx) (σ : Store) : Option VerifyResponse × Store × List ExtCall :=
  match stepOnce ctx (stepOnce ctx (stepOnce ctx (stepOnce ctx (stepOnce ctx (stepOnce ctx
      (stepOnce ctx (stepOnce ctx (Phase.start, σ, [])))))))) with
  | (Phase.finished r, σ1, cs) => (some r, σ1, cs)
  | (_, σ1, cs) => (none, σ1, cs)

/-- Process a batch of requests strictly one after the other (no
interleaving), threading the store. -/
def processAll (ctxs : List VerifyCtx) (σ : Store) : Store :=
  ctxs.foldl (fun σ0 ctx => (runVerify ctx σ0).2.1) σ

/-- Two concurrent in-flight requests over the shared store. -/
structure ConcState where
  ph1 : Phase
  ph2 : Phase
  store : Store
deriving DecidableEq

/-- Let one of the two requests (chosen by the scheduler bit) take its
next atomic step. -/
def concStep (ctx1 ctx2 : VerifyCtx) (s : ConcState) (pick : Bool) : ConcState :=
  if pick then
    let (ph, σ, _) := stepVerify ctx1 s.ph1 s.store
    { s with ph1 := ph, store := σ }
  else
    let (ph, σ, _) := stepVerify ctx2 s.ph2 s.store
    { s with ph2 := ph, store := σ }

/-- Run two concurrent requests under an explicit interleaving schedule. -/
def concRun (ctx1 ctx2 : VerifyCtx) (sched : List Bool) (σ : Store) : ConcState :=
  sched.foldl (concStep ctx1 ctx2) { ph1 := Phase.start, ph2 := Phase.start, store := σ }

/-! ### `DexSwapService.executeSwap` (`DexSwapService.ts`) -/

/-- `TransactionData` from `types.ts` (`nonce?` unused here; the `to`
field is renamed `toAddress` because `to` is reserved in Lean). -/
structure TransactionData where
  toAddress : String
  data : String
  value : String
  gas : String
  gasPrice : String
deriving DecidableEq

/-- One side of a quote (`TokenInfo & { amount }`; the float `usdValue`
is display-only and omitted). -/
structure QuoteTokenSide where
  address : String
  symbol : String
  name : String
  decimals : Nat
  amount : String
deriving DecidableEq

/-- `SwapQuoteResponse` from `types.ts` (`route` omitted: display only). -/
structure SwapQuoteResponse where
  fromToken : QuoteTokenSide
  toToken : QuoteTokenSide
  exchangeRate : String
  priceImpact : String
  estimatedGas : String
  validUntil : Nat
deriving DecidableEq

/-- The fields of an ethers `TransactionReceipt` the service reads. -/
structure TransactionReceipt where
  status : Nat
  gasUsed : Option String
  fee : Option String
deriving DecidableEq

/-- `SwapExecuteRequest` from `types.ts` (optional gas/deadline tuning
fields are never read by `executeSwap` and are omitted). -/
structure SwapExecuteRequest where
  fromTokenAddress : String
  toTokenAddress : String
  amount : String
  walletAddress : String
  slippagePercent : Option String
deriving DecidableEq

/-- `DexErrorFactory.invalidParameters`. -/
def DexErrorFactory.invalidParameters (parameterName value requirement : String) :
    DexSwapError :=
  { code := SwapErrorCode.INVALID_PARAMETERS,
    message := "参数无效：" ++ parameterName ++ " = " ++ value ++ "，要求：" ++ requirement }

/-- `DexErrorFactory.transactionFailed`. -/
def DexErrorFactory.transactionFailed (revertReason : Option String) : DexSwapError :=
  { code := SwapErrorCode.TRANSACTION_FAILED,
    message := "交易执行失败" ++ (match revertReason with
      | some r => ": " ++ r
      | none => "") }

/-- The behavior of `executeSwap`'s collaborators for one invocation: the
constructor-time wallet presence, the token-config lookup, the validator
verdict, and the outcomes of the awaited quote / approval / transaction
build / submission / confirmation calls (each `Except.error` is that call
throwing). Every thrown error funnels through `DexErrorFactory`, so they
are typed `DexSwapError`s. -/
structure SwapEnv where
  walletConfigured : Bool
  tokensFound : Bool
  validationErrors : List String
  quoteOutcome : Except DexSwapError SwapQuoteResponse
  approvalOutcome : Except DexSwapError Unit
  txDataOutcome : Except DexSwapError TransactionData
  simulationEnabled : Bool
  submitOutcome : Except DexSwapError String
  receipt : Option TransactionReceipt
  explorerUrl : String

/-- `simulateTransaction`: the cheap local gate — empty destination or
empty/`'0x'` payload aborts before submission. -/
def simulateTransaction (txData : TransactionData) : Except DexSwapError Unit :=
  if txData.toAddress = "" ∨ txData.data = "" ∨ txData.data = "0x" then
    Except.error (DexErrorFactory.transactionFailed (some "Invalid transaction data"))
  else
    Except.ok ()

/-- `waitForTransactionConfirmation`: missing receipt or a status-0
receipt is a thrown `TRANSACTION_FAILED`. -/
def waitForTransactionConfirmation (receipt : Option TransactionReceipt) :
    Except DexSwapError TransactionReceipt :=
  match receipt with
  | none => Except.error (DexErrorFactory.transactionFailed (some "Transaction not found"))
  | some r =>
    if r.status = 0 then
      Except.error (DexErrorFactory.transactionFailed (some "Transaction reverted"))
    else
      Except.ok r

/-- The `try` body of `executeSwap`: the guard / validation / quote /
approval / build / simulate / submit / confirm sequence, written as an
explicit error-propagation chain — each `Except.error` is that `await`
throwing and unwinding to the `catch`. -/
def executeSwapE (env : SwapEnv) (req : SwapExecuteRequest) :
    Except DexSwapError SwapExecuteResponse :=
  if env.walletConfigured = false then
    Except.error (DexErrorFactory.invalidParameters "wallet" "undefined"
      "wallet instance required for swap execution")
  else if env.tokensFound = false then
    Except.error (DexErrorFactory.invalidParameters "tokens" "not found"
      "token configuration not found")
  else if env.validationErrors.isEmpty = false then
    Except.error (DexErrorFactory.invalidParameters "request" "[object Object]"
      (String.intercalate ", " env.validationErrors))
  else match env.quoteOutcome with
  | Except.error e => Except.error e
  | Except.ok quote =>
    match env.approvalOutcome with
    | Except.error e => Except.error e
    | Except.ok _ =>
      match env.txDataOutcome with
      | Except.error e => Except.error e
      | Except.ok txData =>
        match (if env.simulationEnabled then simulateTransaction txData
               else Except.ok ()) with
        | Except.error e => Except.error e
        | Except.ok _ =>
          match env.submitOutcome with
          | Except.error e => Except.error e
          | Except.ok txHash =>
            match waitForTransactionConfirmation env.receipt with
            | Except.error e => Except.error e
            | Except.ok receipt =>
              Except.ok
                { success := true, transactionHash := some txHash,
                  explorerUrl := some (env.explorerUrl ++ "/tx/" ++ txHash),
                  fromAmount := req.amount, toAmount := quote.toToken.amount,
                  actualRate := some quote.exchangeRate,
                  gasUsed := receipt.gasUsed, gasFee := receipt.fee,
                  errorMessage := none, errorCode := none }

/-- `executeSwap`: the `catch` turns any thrown error into a
`success: false` response echoing the requested amount, with `toAmount`
`'0'` and the error's code and user-friendly message. -/
def executeSwap (env : SwapEnv) (req : SwapExecuteRequest) : SwapExecuteResponse :=
  match executeSwapE env req with
  | Except.ok r => r
  | Except.error e =>
    { success := false, transactionHash := none, explorerUrl := none,
      fromAmount := req.amount, toAmount := "0", actualRate := none,
      gasUsed := none, gasFee := none,
      errorMessage := some e.toUserFriendly, errorCode := some e.code }

/-- A demo request (X Layer USDC to WOKB, 1 USDC). -/
def reqDemo : SwapExecuteRequest :=
  { fromTokenAddress := "0xusdc", toTokenAddress := "0xwokb",
    amount := "1000000", walletAddress := "0xme",
    slippagePercent := some "10.0" }

/-- The `fromToken` side of the demo quote. -/
def quoteDemoFrom : QuoteTokenSide :=
  { address := "0xusdc", symbol := "USDC", name := "USD Coin",
    decimals := 6, amount := "1000000" }

/-- The `toToken` side of the demo quote. -/
def quoteDemoTo : QuoteTokenSide :=
  { address := "0xwokb", symbol := "WOKB", name := "Wrapped OKB",
    decimals := 18, amount := "42" }

/-- A demo quote for `reqDemo`. -/
def quoteDemo : SwapQuoteResponse :=
  { fromToken := quoteDemoFrom, toToken := quoteDemoTo,
    exchangeRate := "42.000000", priceImpact := "0",
    estimatedGas := "300000", validUntil := 30000 }

/-- A demo swap transaction payload. -/
def txDataDemo : TransactionData :=
  { toAddress := "0xrouter", data := "0xdeadbeef", value := "0",
    gas := "300000", gasPrice := "100000000" }

/-- A demo environment in which every collaborator succeeds. -/
def envDemoOk : SwapEnv :=
  { walletConfigured := true, tokensFound := true, validationErrors := [],
    quoteOutcome := Except.ok quoteDemo,
    approvalOutcome := Except.ok (), simulationEnabled := true,
    txDataOutcome := Except.ok txDataDemo,
    submitOutcome := Except.ok "0xhash",
    receipt := some { status := 1, gasUsed := some "21000", fee := some "1" },
    explorerUrl := "https://scan" }

/-- A demo environment whose very first guard throws (no wallet). -/
def envDemoNoWallet : SwapEnv :=
  { envDemoOk with walletConfigured := false }

/-- The template config the route initializes for `token-mint`, with a
configurable cap (the deployed value is 10). -/
def tmplConfig (m : Nat) : TemplateConfig :=
  { templateId := "token-mint", maxMintCount := m, tokenName := "x402",
    tokenSymbol := "X402",
    tokenAddress := "0x74b7f16337b8972027f6196a17a631ac6de26d22", mintPrice := "1" }

/-- A store holding the `token-mint` template config (cap `m`) and the
mint counter at `count`, with no payments or mint records yet. -/
def storeMint (count m : Nat) : Store :=
  { counts := [(mintCountKey "token-mint", count)], payments := [],
    mintRecords := [], configs := [(templateConfigKey "token-mint", tmplConfig m)] }

/-- A store with nothing in it. -/
def emptyStore : Store :=
  { counts := [], payments := [], mintRecords := [], configs := [] }

/-- A successful swap response as returned by the swap service. -/
def swapRespDemo : SwapExecuteResponse :=
  { success := true, transactionHash := some "0xswap", explorerUrl := none,
    fromAmount := "1000000", toAmount := "42", actualRate := none,
    gasUsed := none, gasFee := none, errorMessage := none, errorCode := none }

/-- A `token-mint` request paying 1 USDC whose settlement succeeds and
whose swap leg returns `swapRespDemo`. -/
def mintCtx (n : String) (now : Nat) : VerifyCtx :=
  { nonce := n, templateId := "token-mint", fromAddress := "0xalice",
    toAddress := "0xpay", value := 1000000, settleResults := [true],
    walletConfigured := true, swapOutcome := SwapOutcome.returned swapRespDemo,
    now := now }

/-- The same request against a template without a mint cap. -/
def plainCtx (n : String) (now : Nat) : VerifyCtx :=
  { mintCtx n now with templateId := "premium-api" }

/-- A `token-mint` request whose swap leg throws. -/
def mintCtxThrew (n msg : String) (now : Nat) : VerifyCtx :=
  { mintCtx n now with swapOutcome := SwapOutcome.threw msg }

/-- Final state of two concurrent `token-mint` settlements (distinct
nonces) against a quota at 9/10, interleaved so that both quota
pre-checks run before either increment: both requests pass the check and
both increment. -/
def c1RaceFinal : ConcState :=
  concRun (mintCtx "n1" 111) (mintCtx "n2" 222)
    ([true, true, false, false] ++ List.replicate 5 true ++ List.replicate 5 false)
    (storeMint 9 10)

/-- Final state of two concurrent settlements with the same nonce
`"abc"`, interleaved so that both nonce checks run before either payment
record is written. -/
def c2RaceFinal : ConcState :=
  concRun (plainCtx "abc" 111) (plainCtx "abc" 222)
    [true, false, true, true, false, false] emptyStore

/-- The payment-record JSON the route passes to `savePaymentRecord` for a
request (before the handler adds `created_at`/`status`). -/
def routePaymentRecord (ctx : VerifyCtx) : PaymentRecord :=
  { nonce := ctx.nonce, fromAddress := ctx.fromAddress, toAddress := ctx.toAddress,
    value := ctx.value, templateId := ctx.templateId, createdAt := ctx.now,
    status := "paid" }

/-- The mint record `saveMintRecord` persists for a request: `txHash` on
the success path, `errorMessage` on the swap-error path; the saved
`status` is always the literal `'success'` because `saveMintRecord`
spreads `mintData` before it. -/
def routeMintRecord (ctx : VerifyCtx) (txHash : Option String)
    (errorMessage : Option String) : MintRecord :=
  { id := ctx.now, paymentId := ctx.now, templateId := ctx.templateId,
    userAddress := ctx.fromAddress, mintCount := 1, txHash := txHash,
    receivedAmount := ctx.value, errorMessage := errorMessage,
    createdAt := ctx.now, status := "success" }

/-- A store whose only content is a payment record for nonce `"abc"`. -/
def storePaid : Store :=
  { emptyStore with
    payments := [(paymentNonceKey "abc", routePaymentRecord (plainCtx "abc" 1))] }

/-! ### Association-list map lemmas -/

theorem mapGet_mapSet_self {T : Type} (m : List (String × T)) (k : String) (v : T) :
    mapGet (mapSet m k v) k = some v := by
  induction m with
  | nil => simp [mapSet, mapGet]
  | cons hd tl ih =>
    obtain ⟨k0, v0⟩ := hd
    by_cases h : k0 = k
    · simp [mapSet, mapGet, h]
    · simp [mapSet, mapGet, h, ih]

theorem mapGet_mapSet_ne {T : Type} (m : List (String × T)) (k k' : String) (v : T)
    (h : k' ≠ k) : mapGet (mapSet m k v) k' = mapGet m k' := by
  induction m with
  | nil =>
    simp only [mapSet, mapGet]
    rw [if_neg (Ne.symm h)]
  | cons hd tl ih =>
    obtain ⟨k0, v0⟩ := hd
    by_cases h0 : k0 = k
    · subst h0
      simp only [mapSet, if_pos rfl, mapGet]
      rw [if_neg (Ne.symm h), if_neg (Ne.symm h)]
    · simp only [mapSet, if_neg h0]
      by_cases h1 : k0 = k'
      · simp [mapGet, h1]
      · simp [mapGet, h1, ih]

theorem mapHas_iff_mem_keys {T : Type} (m : List (String × T)) (k : String) :
    mapHas m k = true ↔ k ∈ m.map Prod.fst := by
  induction m with
  | nil => simp [mapHas, mapGet]
  | cons hd tl ih =>
    obtain ⟨k0, v0⟩ := hd
    by_cases h : k0 = k
    · simp [mapHas, mapGet, h]
    · simpa [mapHas, mapGet, h, Ne.symm h] using ih

theorem keys_mapDelete_sublist {T : Type} (m : List (String × T)) (k : String) :
    ((mapDelete m k).map Prod.fst).Sublist (m.map Prod.fst) := by
  induction m with
  | nil => simp [mapDelete]
  | cons hd tl ih =>
    obtain ⟨k0, v0⟩ := hd
    by_cases h : k0 = k
    · simp only [mapDelete, if_pos h, List.map_cons]
      exact (List.sublist_cons_self _ _)
    · simp only [mapDelete, if_neg h, List.map_cons]
      exact ih.cons₂ k0

theorem keys_mapDelete_nodup {T : Type} (m : List (String × T)) (k : String)
    (h : (m.map Prod.fst).Nodup) : ((mapDelete m k).map Prod.fst).Nodup :=
  h.sublist (keys_mapDelete_sublist m k)

theorem mapGet_mapDelete_self {T : Type} (m : List (String × T)) (k : String)
    (h : (m.map Prod.fst).Nodup) : mapGet (mapDelete m k) k = none := by
  induction m with
  | nil => simp [mapDelete, mapGet]
  | cons hd tl ih =>
    obtain ⟨k0, v0⟩ := hd
    simp only [List.map_cons, List.nodup_cons] at h
    by_cases h0 : k0 = k
    · subst h0
      simp only [mapDelete, if_pos rfl]
      cases hg : mapGet tl k0 with
      | none => exact hg
      | some v =>
        exfalso
        have : k0 ∈ tl.map Prod.fst := by
          have := (mapHas_iff_mem_keys tl k0).mp (by simp [mapHas, hg])
          exact this
        exact h.1 this
    · simp only [mapDelete, if_neg h0, mapGet, if_neg h0]
      exact ih h.2

theorem mapGet_mapDelete_ne {T : Type} (m : List (String × T)) (k k' : String)
    (h : k' ≠ k) : mapGet (mapDelete m k) k' = mapGet m k' := by
  induction m with
  | nil => simp [mapDelete]
  | cons hd tl ih =>
    obtain ⟨k0, v0⟩ := hd
    by_cases h0 : k0 = k
    · subst h0
      have hdel : mapDelete ((k0, v0) :: tl) k0 = tl := by simp [mapDelete]
      rw [hdel]
      simp [mapGet, Ne.symm h]
    · simp only [mapDelete, if_neg h0]
      by_cases h1 : k0 = k'
      · simp [mapGet, h1]
      · simp [mapGet, h1, ih]

theorem mapSet_length_of_has {T : Type} (m : List (String × T)) (k : String) (v : T)
    (h : mapHas m k = true) : (mapSet m k v).length = m.length := by
  induction m with
  | nil => simp [mapHas, mapGet] at h
  | cons hd tl ih =>
    obtain ⟨k0, v0⟩ := hd
    by_cases h0 : k0 = k
    · simp [mapSet, h0]
    · simp only [mapHas, mapGet, if_neg h0] at h
      simp [mapSet, if_neg h0, ih h]

theorem mapSet_length_of_not_has {T : Type} (m : List (String × T)) (k : String) (v : T)
    (h : mapHas m k = false) : (mapSet m k v).length = m.length + 1 := by
  induction m with
  | nil => simp [mapSet]
  | cons hd tl ih =>
    obtain ⟨k0, v0⟩ := hd
    by_cases h0 : k0 = k
    · simp [mapHas, mapGet, h0] at h
    · simp only [mapHas, mapGet, if_neg h0] at h
      simp [mapSet, if_neg h0, ih h]

theorem mapDelete_length_of_has {T : Type} (m : List (String × T)) (k : String)
    (h : mapHas m k = true) : (mapDelete m k).length + 1 = m.length := by
  induction m with
  | nil => simp [mapHas, mapGet] at h
  | cons hd tl ih =>
    obtain ⟨k0, v0⟩ := hd
    by_cases h0 : k0 = k
    · simp [mapDelete, h0]
    · simp only [mapHas, mapGet, if_neg h0] at h
      simp [mapDelete, if_neg h0, ih h]

theorem mapDelete_of_not_has {T : Type} (m : List (String × T)) (k : String)
    (h : mapHas m k = false) : mapDelete m k = m := by
  induction m with
  | nil => simp [mapDelete]
  | cons hd tl ih =>
    obtain ⟨k0, v0⟩ := hd
    by_cases h0 : k0 = k
    · simp [mapHas, mapGet, h0] at h
    · simp only [mapHas, mapGet, if_neg h0] at h
      simp [mapDelete, if_neg h0, ih h]

theorem keys_mapSet_of_has {T : Type} (m : List (String × T)) (k : String) (v : T)
    (h : mapHas m k = true) : (mapSet m k v).map Prod.fst = m.map Prod.fst := by
  induction m with
  | nil => simp [mapHas, mapGet] at h
  | cons hd tl ih =>
    obtain ⟨k0, v0⟩ := hd
    by_cases h0 : k0 = k
    · simp [mapSet, h0]
    · simp only [mapHas, mapGet, if_neg h0] at h
      simp [mapSet, if_neg h0, ih h]

theorem keys_mapSet_of_not_has {T : Type} (m : List (String × T)) (k : String) (v : T)
    (h : mapHas m k = false) : (mapSet m k v).map Prod.fst = m.map Prod.fst ++ [k] := by
  induction m with
  | nil => simp [mapSet]
  | cons hd tl ih =>
    obtain ⟨k0, v0⟩ := hd
    by_cases h0 : k0 = k
    · simp [mapHas, mapGet, h0] at h
    · simp only [mapHas, mapGet, if_neg h0] at h
      simp [mapSet, if_neg h0, ih h]

theorem mem_keys_mapDelete {T : Type} (m : List (String × T)) (k k' : String)
    (h : (m.map Prod.fst).Nodup) :
    k' ∈ (mapDelete m k).map Prod.fst ↔ k' ∈ m.map Prod.fst ∧ k' ≠ k := by
  constructor
  · intro hm
    by_cases hk : k' = k
    · subst hk
      exfalso
      have h1 : mapHas (mapDelete m k') k' = true :=
        (mapHas_iff_mem_keys (mapDelete m k') k').mpr hm
      rw [mapHas, mapGet_mapDelete_self m k' h] at h1
      simp at h1
    · exact ⟨(keys_mapDelete_sublist m k).subset hm, hk⟩
  · rintro ⟨hm, hk⟩
    have h1 : mapHas m k' = true := (mapHas_iff_mem_keys m k').mpr hm
    have h2 : mapHas (mapDelete m k) k' = true := by
      rw [mapHas, mapGet_mapDelete_ne m k k' hk]
      rw [mapHas] at h1
      exact h1
    exact (mapHas_iff_mem_keys _ k').mp h2

/-! ### Access-order list lemmas -/

theorem removeFromAccessOrder_sublist (l : List String) (k : String) :
    (removeFromAccessOrder l k).Sublist l := by
  induction l with
  | nil => simp [removeFromAccessOrder]
  | cons hd tl ih =>
    by_cases h : hd = k
    · simp only [removeFromAccessOrder, if_pos h]
      exact List.sublist_cons_self _ _
    · simp only [removeFromAccessOrder, if_neg h]
      exact ih.cons₂ hd

theorem removeFromAccessOrder_nodup (l : List String) (k : String) (h : l.Nodup) :
    (removeFromAccessOrder l k).Nodup :=
  h.sublist (removeFromAccessOrder_sublist l k)

theorem not_mem_removeFromAccessOrder (l : List String) (k : String) (h : l.Nodup) :
    k ∉ removeFromAccessOrder l k := by
  induction l with
  | nil => simp [removeFromAccessOrder]
  | cons hd tl ih =>
    simp only [List.nodup_cons] at h
    by_cases h0 : hd = k
    · subst h0
      simp only [removeFromAccessOrder, if_pos rfl]
      exact h.1
    · simp only [removeFromAccessOrder, if_neg h0, List.mem_cons]
      rintro (rfl | hm)
      · exact h0 rfl
      · exact ih h.2 hm

theorem mem_removeFromAccessOrder (l : List String) (k k' : String) (h : l.Nodup) :
    k' ∈ removeFromAccessOrder l k ↔ k' ∈ l ∧ k' ≠ k := by
  induction l with
  | nil => simp [removeFromAccessOrder]
  | cons hd tl ih =>
    simp only [List.nodup_cons] at h
    by_cases h0 : hd = k
    · subst h0
      simp only [removeFromAccessOrder, if_pos rfl, List.mem_cons]
      constructor
      · intro hm
        refine ⟨Or.inr hm, ?_⟩
        rintro rfl
        exact h.1 hm
      · rintro ⟨(rfl | hm), hk⟩
        · exact absurd rfl hk
        · exact hm
    · simp only [removeFromAccessOrder, if_neg h0, List.mem_cons, ih h.2]
      constructor
      · rintro (rfl | ⟨hm, hk⟩)
        · exact ⟨Or.inl rfl, fun hh => h0 hh⟩
        · exact ⟨Or.inr hm, hk⟩
      · rintro ⟨(rfl | hm), hk⟩
        · exact Or.inl rfl
        · exact Or.inr ⟨hm, hk⟩

theorem mem_updateAccessOrder (l : List String) (k k' : String) (h : l.Nodup) :
    k' ∈ updateAccessOrder l k ↔ k' ∈ l ∨ k' = k := by
  simp only [updateAccessOrder, List.mem_append, List.mem_singleton,
    mem_removeFromAccessOrder l k k' h]
  constructor
  · rintro (⟨hm, _⟩ | rfl)
    · exact Or.inl hm
    · exact Or.inr rfl
  · rintro (hm | rfl)
    · by_cases hk : k' = k
      · exact Or.inr hk
      · exact Or.inl ⟨hm, hk⟩
    · exact Or.inr rfl

theorem updateAccessOrder_nodup (l : List String) (k : String) (h : l.Nodup) :
    (updateAccessOrder l k).Nodup := by
  have h1 := removeFromAccessOrder_nodup l k h
  have h2 := not_mem_removeFromAccessOrder l k h
  simp only [updateAccessOrder]
  exact List.Nodup.append h1 (List.nodup_singleton k)
    (by simpa [List.disjoint_singleton] using h2)

/-! ### Cache invariant -/

theorem scanMinByGo_mem {T : Type} (f : ExtendedCacheEntry T → Nat)
    (m : List (String × ExtendedCacheEntry T)) :
    ∀ acc k n, scanMinByGo f m acc = some (k, n) →
      k ∈ m.map Prod.fst ∨ acc = some (k, n) := by
  induction m with
  | nil =>
    intro acc k n h
    exact Or.inr h
  | cons hd tl ih =>
    intro acc k n h
    obtain ⟨k0, e0⟩ := hd
    simp only [scanMinByGo] at h
    rcases ih _ k n h with hm | hacc
    · exact Or.inl (by simp [hm])
    · cases acc with
      | none =>
        simp only at hacc
        have : k0 = k := by
          by_contra hne
          simp [hne] at hacc
        exact Or.inl (by simp [this])
      | some p =>
        obtain ⟨ka, na⟩ := p
        simp only at hacc
        by_cases hlt : f e0 < na
        · rw [if_pos hlt] at hacc
          have : k0 = k := by
            by_contra hne
            simp [hne] at hacc
          exact Or.inl (by simp [this])
        · rw [if_neg hlt] at hacc
          exact Or.inr hacc

theorem scanMinByGo_ne_none {T : Type} (f : ExtendedCacheEntry T → Nat)
    (m : List (String × ExtendedCacheEntry T)) (hm : m ≠ []) :
    ∀ acc, scanMinByGo f m acc = none → False := by
  induction m with
  | nil => exact absurd rfl hm
  | cons hd tl ih =>
    intro acc h
    obtain ⟨k0, e0⟩ := hd
    simp only [scanMinByGo] at h
    cases htl : tl with
    | nil =>
      subst htl
      cases acc with
      | none => simp [scanMinByGo] at h
      | some p =>
        obtain ⟨ka, na⟩ := p
        by_cases hlt : f e0 < na
        · simp [scanMinByGo, hlt] at h
        · simp [scanMinByGo, hlt] at h
    | cons x xs =>
      exact ih (by simp [htl]) _ h

/-- The reachable-state invariant of a `SmartCacheManager`: the backing
map has pairwise-distinct keys (as a JS `Map` always does), the LRU
`accessOrder` array is duplicate-free and, under the LRU strategy, holds
exactly the map's keys (under any other strategy it is never written, so
it stays empty). -/
def CacheInv {T : Type} (c : SmartCacheManager T) : Prop :=
  (c.cache.map Prod.fst).Nodup ∧
  c.accessOrder.Nodup ∧
  ∀ k, k ∈ c.accessOrder ↔ (c.strategy = CacheStrategy.LRU ∧ k ∈ c.cache.map Prod.fst)

theorem evictEntry_spec {T : Type} (c : SmartCacheManager T)
    (hinv : CacheInv c) (hne : c.cache ≠ []) :
    CacheInv (evictEntry c) ∧
    (evictEntry c).cache.length + 1 = c.cache.length ∧
    (evictEntry c).config = c.config ∧ (evictEntry c).strategy = c.strategy ∧
    ∀ k, mapHas c.cache k = false → mapHas (evictEntry c).cache k = false := by
  obtain ⟨hnodup, hord, hmem⟩ := hinv
  -- the selected victim is always a present key
  have hvictim : ∃ k, (match c.strategy with
      | CacheStrategy.LRU => c.accessOrder.head?
      | CacheStrategy.LFU => findLeastFrequentlyUsed c
      | CacheStrategy.FIFO => findOldestEntry c
      | CacheStrategy.TTL_ONLY => findSoonestToExpire c) = some k ∧
      k ∈ c.cache.map Prod.fst := by
    cases hs : c.strategy with
    | LRU =>
      obtain ⟨⟨k0, e0⟩, rest, hrest⟩ := List.exists_cons_of_ne_nil hne
      have hk0 : k0 ∈ c.cache.map Prod.fst := by simp [hrest]
      have hk0o : k0 ∈ c.accessOrder := (hmem k0).mpr ⟨hs, hk0⟩
      obtain ⟨h0, t0, hor⟩ := List.exists_cons_of_ne_nil
        (List.ne_nil_of_mem hk0o)
      refine ⟨h0, by simp [hor], ?_⟩
      have : h0 ∈ c.accessOrder := by simp [hor]
      exact ((hmem h0).mp this).2
    | LFU =>
      cases hscan : scanMinByGo (fun e => e.accessCount) c.cache none with
      | none => exact absurd hscan (by intro hh; exact scanMinByGo_ne_none _ _ hne _ hh)
      | some p =>
        obtain ⟨k0, n0⟩ := p
        rcases scanMinByGo_mem _ _ _ _ _ hscan with hm | hcontra
        · exact ⟨k0, by simp [findLeastFrequentlyUsed, hscan], hm⟩
        · simp at hcontra
    | FIFO =>
      cases hscan : scanMinByGo (fun e => e.createdAt) c.cache none with
      | none => exact absurd hscan (by intro hh; exact scanMinByGo_ne_none _ _ hne _ hh)
      | some p =>
        obtain ⟨k0, n0⟩ := p
        rcases scanMinByGo_mem _ _ _ _ _ hscan with hm | hcontra
        · exact ⟨k0, by simp [findOldestEntry, hscan], hm⟩
        · simp at hcontra
    | TTL_ONLY =>
      cases hscan : scanMinByGo (fun e => e.timestamp + e.ttl) c.cache none with
      | none => exact absurd hscan (by intro hh; exact scanMinByGo_ne_none _ _ hne _ hh)
      | some p =>
        obtain ⟨k0, n0⟩ := p
        rcases scanMinByGo_mem _ _ _ _ _ hscan with hm | hcontra
        · exact ⟨k0, by simp [findSoonestToExpire, hscan], hm⟩
        · simp at hcontra
  obtain ⟨kv, hsel, hkv⟩ := hvictim
  have hres : evictEntry c =
      { c with cache := mapDelete c.cache kv,
               accessOrder := removeFromAccessOrder c.accessOrder kv } := by
    unfold evictEntry
    rw [hsel]
  rw [hres]
  refine ⟨⟨keys_mapDelete_nodup _ _ hnodup,
           removeFromAccessOrder_nodup _ _ hord, ?_⟩, ?_, rfl, rfl, ?_⟩
  · intro k
    rw [mem_removeFromAccessOrder _ _ _ hord]
    simp only [hmem k]
    rw [mem_keys_mapDelete _ _ _ hnodup]
    constructor
    · rintro ⟨⟨hs, hk⟩, hne'⟩
      exact ⟨hs, hk, hne'⟩
    · rintro ⟨hs, hk, hne'⟩
      exact ⟨⟨hs, hk⟩, hne'⟩
  · exact mapDelete_length_of_has _ _ ((mapHas_iff_mem_keys _ _).mpr hkv)
  · intro k hk
    cases hdk : mapHas (mapDelete c.cache kv) k
    · rfl
    · exfalso
      have := (mapHas_iff_mem_keys _ _).mp hdk
      have := (keys_mapDelete_sublist c.cache kv).subset this
      rw [← mapHas_iff_mem_keys] at this
      rw [hk] at this
      simp at this

theorem mapDelete_length_le {T : Type} (m : List (String × T)) (k : String) :
    (mapDelete m k).length ≤ m.length := by
  have h := keys_mapDelete_sublist m k
  have := h.length_le
  simpa using this

theorem keys_mapSet_nodup {T : Type} (m : List (String × T)) (k : String) (v : T)
    (h : (m.map Prod.fst).Nodup) : ((mapSet m k v).map Prod.fst).Nodup := by
  by_cases hh : mapHas m k = true
  · rw [keys_mapSet_of_has m k v hh]
    exact h
  · rw [keys_mapSet_of_not_has m k v (by simpa using hh)]
    rw [List.nodup_append]
    refine ⟨h, List.nodup_singleton k, ?_⟩
    intro a ha hmem
    simp only [List.mem_singleton] at hmem
    subst hmem
    exact hh ((mapHas_iff_mem_keys m a).mpr ha)

theorem cacheInsert_inv {T : Type} (c1 : SmartCacheManager T) (key : String)
    (entry : ExtendedCacheEntry T) (hinv : CacheInv c1) :
    CacheInv { c1 with
      cache := mapSet c1.cache key entry,
      accessOrder := if c1.strategy = CacheStrategy.LRU then
          updateAccessOrder c1.accessOrder key
        else c1.accessOrder } := by
  obtain ⟨hnodup, hord, hmem⟩ := hinv
  have hkeys_sub : ∀ k', k' ∈ c1.cache.map Prod.fst → k' ∈ (mapSet c1.cache key entry).map Prod.fst := by
    intro k' hk'
    by_cases hh : mapHas c1.cache key = true
    · rw [keys_mapSet_of_has _ _ _ hh]; exact hk'
    · rw [keys_mapSet_of_not_has _ _ _ (by simpa using hh)]
      exact List.mem_append_left _ hk'
  have hkey_mem : key ∈ (mapSet c1.cache key entry).map Prod.fst := by
    by_cases hh : mapHas c1.cache key = true
    · rw [keys_mapSet_of_has _ _ _ hh]
      exact (mapHas_iff_mem_keys _ _).mp hh
    · rw [keys_mapSet_of_not_has _ _ _ (by simpa using hh)]
      exact List.mem_append_right _ (List.mem_singleton_self key)
  have hkeys_back : ∀ k', k' ∈ (mapSet c1.cache key entry).map Prod.fst →
      k' ∈ c1.cache.map Prod.fst ∨ k' = key := by
    intro k' hk'
    by_cases hh : mapHas c1.cache key = true
    · rw [keys_mapSet_of_has _ _ _ hh] at hk'
      exact Or.inl hk'
    · rw [keys_mapSet_of_not_has _ _ _ (by simpa using hh)] at hk'
      rcases List.mem_append.mp hk' with h1 | h1
      · exact Or.inl h1
      · exact Or.inr (List.mem_singleton.mp h1)
  refine ⟨keys_mapSet_nodup _ _ _ hnodup, ?_, ?_⟩
  · by_cases hs : c1.strategy = CacheStrategy.LRU
    · simp only [hs, if_true, eq_self_iff_true]
      exact updateAccessOrder_nodup _ _ hord
    · simp only [if_neg hs]
      exact hord
  · intro k
    by_cases hs : c1.strategy = CacheStrategy.LRU
    · simp only [hs, if_true, eq_self_iff_true, true_and]
      rw [mem_updateAccessOrder _ _ _ hord]
      constructor
      · rintro (hk | rfl)
        · exact hkeys_sub k (((hmem k).mp hk).2)
        · exact hkey_mem
      · intro hk
        rcases hkeys_back k hk with h1 | rfl
        · exact Or.inl ((hmem k).mpr ⟨hs, h1⟩)
        · exact Or.inr rfl
    · simp only [if_neg hs]
      constructor
      · intro hk
        exact absurd ((hmem k).mp hk).1 hs
      · rintro ⟨hcontra, -⟩
        exact absurd hcontra hs

theorem cacheRemove_inv {T : Type} (c : SmartCacheManager T) (key : String)
    (hinv : CacheInv c) :
    CacheInv { c with cache := mapDelete c.cache key,
                      accessOrder := removeFromAccessOrder c.accessOrder key } := by
  obtain ⟨hnodup, hord, hmem⟩ := hinv
  refine ⟨keys_mapDelete_nodup _ _ hnodup, removeFromAccessOrder_nodup _ _ hord, ?_⟩
  intro k
  show k ∈ removeFromAccessOrder c.accessOrder key ↔
    c.strategy = CacheStrategy.LRU ∧ k ∈ (mapDelete c.cache key).map Prod.fst
  rw [mem_removeFromAccessOrder _ _ _ hord, mem_keys_mapDelete _ _ _ hnodup]
  constructor
  · rintro ⟨hk, hne⟩
    obtain ⟨hs, hkk⟩ := (hmem k).mp hk
    exact ⟨hs, hkk, hne⟩
  · rintro ⟨hs, hkk, hne⟩
    exact ⟨(hmem k).mpr ⟨hs, hkk⟩, hne⟩

theorem cacheSet_spec {T : Type} (c : SmartCacheManager T) (key : String) (data : T)
    (ttl now : Nat) (hinv : CacheInv c) (hlen : c.cache.length ≤ c.config.maxSize)
    (hmax : 1 ≤ c.config.maxSize) :
    CacheInv (c.set key data ttl now) ∧
    (c.set key data ttl now).cache.length ≤ c.config.maxSize ∧
    (c.set key data ttl now).config = c.config := by
  by_cases hcond : c.config.maxSize ≤ c.cache.length ∧ mapHas c.cache key = false
  · have hne : c.cache ≠ [] := by
      intro h0
      have h1 := hcond.1
      rw [h0] at h1
      simp at h1
      omega
    obtain ⟨hinv1, hlen1, hcfg1, hstrat1, hhas1⟩ := evictEntry_spec c hinv hne
    have hkey1 := hhas1 key hcond.2
    have hset : c.set key data ttl now =
        { evictEntry c with
          cache := mapSet (evictEntry c).cache key
            { key := key, data := data, timestamp := now, ttl := ttl,
              accessCount := 1, lastAccessed := now, createdAt := now },
          accessOrder := if (evictEntry c).strategy = CacheStrategy.LRU then
              updateAccessOrder (evictEntry c).accessOrder key
            else (evictEntry c).accessOrder } := by
      simp only [SmartCacheManager.set]
      rw [if_pos hcond]
      by_cases hs : (evictEntry c).strategy = CacheStrategy.LRU
      · simp [hs]
      · simp [hs]
    rw [hset]
    refine ⟨cacheInsert_inv (evictEntry c) key _ hinv1, ?_, ?_⟩
    · show (mapSet (evictEntry c).cache key _).length ≤ c.config.maxSize
      rw [mapSet_length_of_not_has _ _ _ hkey1]
      omega
    · show (evictEntry c).config = c.config
      exact hcfg1
  · have hset : c.set key data ttl now =
        { c with
          cache := mapSet c.cache key
            { key := key, data := data, timestamp := now, ttl := ttl,
              accessCount := 1, lastAccessed := now, createdAt := now },
          accessOrder := if c.strategy = CacheStrategy.LRU then
              updateAccessOrder c.accessOrder key
            else c.accessOrder } := by
      simp only [SmartCacheManager.set]
      rw [if_neg hcond]
      by_cases hs : c.strategy = CacheStrategy.LRU
      · simp [hs]
      · simp [hs]
    rw [hset]
    refine ⟨cacheInsert_inv c key _ hinv, ?_, rfl⟩
    show (mapSet c.cache key _).length ≤ c.config.maxSize
    by_cases hh : mapHas c.cache key = true
    · rw [mapSet_length_of_has _ _ _ hh]
      exact hlen
    · have hfalse : mapHas c.cache key = false := by simpa using hh
      rw [mapSet_length_of_not_has _ _ _ hfalse]
      have hlt : ¬ (c.config.maxSize ≤ c.cache.length) := fun hA => hcond ⟨hA, hfalse⟩
      omega

theorem cacheGet_spec {T : Type} (c : SmartCacheManager T) (key : String) (now : Nat)
    (hinv : CacheInv c) (hlen : c.cache.length ≤ c.config.maxSize) :
    CacheInv (c.get key now).2 ∧
    (c.get key now).2.cache.length ≤ c.config.maxSize ∧
    (c.get key now).2.config = c.config := by
  cases hg : mapGet c.cache key with
  | none =>
    have hres : (c.get key now).2 = c := by
      unfold SmartCacheManager.get
      rw [hg]
    rw [hres]
    exact ⟨hinv, hlen, rfl⟩
  | some entry =>
    by_cases hexp : entry.ttl < now - entry.timestamp
    · have hres : (c.get key now).2 =
          { c with cache := mapDelete c.cache key,
                   accessOrder := removeFromAccessOrder c.accessOrder key } := by
        unfold SmartCacheManager.get
        rw [hg]
        simp [hexp]
      rw [hres]
      refine ⟨cacheRemove_inv c key hinv, ?_, rfl⟩
      show (mapDelete c.cache key).length ≤ c.config.maxSize
      exact le_trans (mapDelete_length_le _ _) hlen
    · have hhas : mapHas c.cache key = true := by simp [mapHas, hg]
      have hres : (c.get key now).2 =
          { c with
            cache := (mapSet c.cache key { entry with accessCount := entry.accessCount + 1, lastAccessed := now }),
            accessOrder := if c.strategy = CacheStrategy.LRU then
                updateAccessOrder c.accessOrder key else c.accessOrder } := by
        unfold SmartCacheManager.get
        rw [hg]
        by_cases hs : c.strategy = CacheStrategy.LRU
        · simp [hexp, hs]
        · simp [hexp, hs]
      rw [hres]
      refine ⟨cacheInsert_inv c key _ hinv, ?_, rfl⟩
      show (mapSet c.cache key _).length ≤ c.config.maxSize
      rw [mapSet_length_of_has _ _ _ hhas]
      exact hlen

theorem cacheDel_spec {T : Type} (c : SmartCacheManager T) (key : String)
    (hinv : CacheInv c) (hlen : c.cache.length ≤ c.config.maxSize) :
    CacheInv (c.del key).2 ∧
    (c.del key).2.cache.length ≤ c.config.maxSize ∧
    (c.del key).2.config = c.config := by
  by_cases hh : mapHas c.cache key = true
  · have hres : (c.del key).2 =
        { c with cache := mapDelete c.cache key,
                 accessOrder := removeFromAccessOrder c.accessOrder key } := by
      unfold SmartCacheManager.del
      simp [hh]
    rw [hres]
    refine ⟨cacheRemove_inv c key hinv, ?_, rfl⟩
    show (mapDelete c.cache key).length ≤ c.config.maxSize
    exact le_trans (mapDelete_length_le _ _) hlen
  · have hfalse : mapHas c.cache key = false := by simpa using hh
    have hres : (c.del key).2 = c := by
      unfold SmartCacheManager.del
      simp [hfalse]
    rw [hres]
    exact ⟨hinv, hlen, rfl⟩

theorem cacheSet_cache_eq {T : Type} (c : SmartCacheManager T) (key : String) (v : T)
    (ttl now : Nat) :
    (c.set key v ttl now).cache =
    mapSet (if c.config.maxSize ≤ c.cache.length ∧ mapHas c.cache key = false
        then evictEntry c else c).cache key
      { key := key, data := v, timestamp := now, ttl := ttl,
        accessCount := 1, lastAccessed := now, createdAt := now } := by
  simp only [SmartCacheManager.set]
  by_cases hs : (if c.config.maxSize ≤ c.cache.length ∧ mapHas c.cache key = false
      then evictEntry c else c).strategy = CacheStrategy.LRU
  · simp [hs]
  · simp [hs]

theorem evictEntry_keys_nodup {T : Type} (c : SmartCacheManager T)
    (h : (c.cache.map Prod.fst).Nodup) : ((evictEntry c).cache.map Prod.fst).Nodup := by
  unfold evictEntry
  cases hs : c.strategy with
  | LRU =>
    cases ho : c.accessOrder.head? with
    | none => simpa [ho] using h
    | some k => simpa [ho] using keys_mapDelete_nodup _ _ h
  | LFU =>
    cases hf : findLeastFrequentlyUsed c with
    | none => simpa [hf] using h
    | some k => simpa [hf] using keys_mapDelete_nodup _ _ h
  | FIFO =>
    cases hf : findOldestEntry c with
    | none => simpa [hf] using h
    | some k => simpa [hf] using keys_mapDelete_nodup _ _ h
  | TTL_ONLY =>
    cases hf : findSoonestToExpire c with
    | none => simpa [hf] using h
    | some k => simpa [hf] using keys_mapDelete_nodup _ _ h

theorem applyCacheOp_spec {T : Type} (c : SmartCacheManager T) (op : CacheOp T)
    (hinv : CacheInv c) (hlen : c.cache.length ≤ c.config.maxSize)
    (hmax : 1 ≤ c.config.maxSize) :
    CacheInv (applyCacheOp c op) ∧
    (applyCacheOp c op).cache.length ≤ c.config.maxSize ∧
    (applyCacheOp c op).config = c.config := by
  cases op with
  | setOp key data ttl now => exact cacheSet_spec c key data ttl now hinv hlen hmax
  | getOp key now => exact cacheGet_spec c key now hinv hlen
  | delOp key => exact cacheDel_spec c key hinv hlen

/-- C10: starting from a freshly constructed cache, every sequence of
`set`/`get`/`delete` operations keeps the number of stored entries within
the configured `maxSize` (provided the configured bound is at least 1),
for every eviction strategy: a `set` that would add a new key to a full
cache evicts an existing entry first. -/
theorem C10_cache_size_bounded (T : Type) (config : CacheConfig) (strategy : CacheStrategy)
    (ops : List (CacheOp T)) (hmax : 1 ≤ config.maxSize) :
    (ops.foldl applyCacheOp (SmartCacheManager.empty T config strategy)).cache.length ≤
      config.maxSize := by
  suffices h : ∀ (rest : List (CacheOp T)) (c : SmartCacheManager T), CacheInv c →
      c.cache.length ≤ c.config.maxSize → c.config = config →
      CacheInv (rest.foldl applyCacheOp c) ∧
      (rest.foldl applyCacheOp c).cache.length ≤ config.maxSize ∧
      (rest.foldl applyCacheOp c).config = config by
    have hempty : CacheInv (SmartCacheManager.empty T config strategy) := by
      refine ⟨by simp [SmartCacheManager.empty], by simp [SmartCacheManager.empty], ?_⟩
      intro k
      simp [SmartCacheManager.empty]
    exact (h ops _ hempty (by simp [SmartCacheManager.empty]) rfl).2.1
  intro rest
  induction rest with
  | nil =>
    intro c h1 h2 h3
    refine ⟨h1, ?_, h3⟩
    simpa [h3] using h2
  | cons op tl ih =>
    intro c h1 h2 h3
    simp only [List.foldl_cons]
    obtain ⟨i1, i2, i3⟩ := applyCacheOp_spec c op h1 h2 (by rw [h3]; exact hmax)
    refine ih _ i1 ?_ (by rw [i3, h3])
    rw [i3]
    exact i2

/-- C10 witness: a concrete run with `maxSize = 2` and three inserts
stays within the bound. -/
theorem C10_cache_size_bounded_witness :
    1 ≤ (2 : Nat) ∧
    (([CacheOp.setOp "a" (1 : Nat) 10 0, CacheOp.setOp "b" 2 10 1,
       CacheOp.setOp "c" 3 10 2].foldl applyCacheOp
        (SmartCacheManager.empty Nat
          { quoteTtl := 30000, maxSize := 2, cleanupInterval := 60000 }
          CacheStrategy.LRU)).cache.length ≤ 2) :=
  ⟨by decide,
   C10_cache_size_bounded Nat
     { quoteTtl := 30000, maxSize := 2, cleanupInterval := 60000 }
     CacheStrategy.LRU
     [CacheOp.setOp "a" 1 10 0, CacheOp.setOp "b" 2 10 1, CacheOp.setOp "c" 3 10 2]
     (by decide)⟩

/-- C7: a `set(key, v, ttl)` followed immediately by `get(key)` returns
`v`; and once strictly more than `ttl` has elapsed since the `set`, a
`get(key)` is a miss and the expired entry is purged from the backing map
by that access (for any eviction strategy). The no-duplicate-keys
hypothesis in the second part holds of every real `Map`-backed state. -/
theorem C7_cache_roundtrip :
    (∀ (T : Type) (c : SmartCacheManager T) (key : String) (v : T) (ttl now : Nat),
       ((c.set key v ttl now).get key now).1 = some v) ∧
    (∀ (T : Type) (c : SmartCacheManager T) (key : String) (v : T) (ttl now t : Nat),
       (c.cache.map Prod.fst).Nodup → ttl < t - now →
       ((c.set key v ttl now).get key t).1 = none ∧
       mapGet ((c.set key v ttl now).get key t).2.cache key = none) := by
  constructor
  · intro T c key v ttl now
    have h1 : mapGet (c.set key v ttl now).cache key =
        some { key := key, data := v, timestamp := now, ttl := ttl,
               accessCount := 1, lastAccessed := now, createdAt := now } := by
      rw [cacheSet_cache_eq]
      exact mapGet_mapSet_self _ _ _
    unfold SmartCacheManager.get
    rw [h1]
    simp
  · intro T c key v ttl now t hnodup hexp
    have h1 : mapGet (c.set key v ttl now).cache key =
        some { key := key, data := v, timestamp := now, ttl := ttl,
               accessCount := 1, lastAccessed := now, createdAt := now } := by
      rw [cacheSet_cache_eq]
      exact mapGet_mapSet_self _ _ _
    have hnodup3 : ((c.set key v ttl now).cache.map Prod.fst).Nodup := by
      rw [cacheSet_cache_eq]
      apply keys_mapSet_nodup
      by_cases hcond : c.config.maxSize ≤ c.cache.length ∧ mapHas c.cache key = false
      · rw [if_pos hcond]
        exact evictEntry_keys_nodup c hnodup
      · rw [if_neg hcond]
        exact hnodup
    constructor
    · unfold SmartCacheManager.get
      rw [h1]
      simp [hexp]
    · unfold SmartCacheManager.get
      rw [h1]
      simp only [hexp, if_pos]
      simpa using mapGet_mapDelete_self _ key hnodup3

/-- C7 witness: the round-trip and the expiry at a concrete instant. -/
theorem C7_cache_roundtrip_witness :
    (((SmartCacheManager.empty Nat {} CacheStrategy.LRU).set "q" 7 30000 1000).get
        "q" 1000).1 = some 7 ∧
    ((((SmartCacheManager.empty Nat {} CacheStrategy.LRU).cache.map Prod.fst).Nodup ∧
       30000 < 31001 - 1000) ∧
     (((SmartCacheManager.empty Nat {} CacheStrategy.LRU).set "q" 7 30000 1000).get
         "q" 31001).1 = none) :=
  ⟨C7_cache_roundtrip.1 Nat _ "q" 7 30000 1000,
   ⟨by decide, by decide⟩,
   (C7_cache_roundtrip.2 Nat (SmartCacheManager.empty Nat {} CacheStrategy.LRU)
      "q" 7 30000 1000 31001 (by decide) (by decide)).1⟩

/-! ### Retry engine lemmas -/

theorem executeAttemptsGo_ok {T : Type} (op : Nat → Except JsError T) (cfg : RetryConfig)
    (N : Nat) (v : T) (hN : N ≤ cfg.maxAttempts) (hop : op N = Except.ok v) :
    ∀ (k a ctx : Nat) (le : Option JsError), N - a = k → 1 ≤ a → a ≤ N →
      (∀ i, a ≤ i → i < N → failsRetryably cfg (op i) = true) →
      executeAttemptsGo op cfg a ctx le = (Except.ok v, N) := by
  intro k
  induction k with
  | zero =>
    intro a ctx le hk h1 haN hfail
    have ha : a = N := by omega
    subst ha
    rw [executeAttemptsGo]
    rw [dif_neg (by omega : ¬ cfg.maxAttempts < a)]
    rw [hop]
  | succ k ih =>
    intro a ctx le hk h1 haN hfail
    have haN' : a < N := by omega
    have hfa := hfail a (le_refl a) haN'
    cases hopa : op a with
    | ok w =>
      rw [hopa] at hfa
      simp [failsRetryably] at hfa
    | error e =>
      rw [hopa] at hfa
      simp only [failsRetryably] at hfa
      rw [executeAttemptsGo]
      rw [dif_neg (by omega : ¬ cfg.maxAttempts < a)]
      rw [hopa]
      simp only [hfa, if_true]
      exact ih (a + 1) a (some e) (by omega) (by omega) (by omega)
        (fun i hi1 hi2 => hfail i (by omega) hi2)

theorem executeAttemptsGo_exhaust {T : Type} (op : Nat → Except JsError T)
    (cfg : RetryConfig) (eLast : JsError)
    (hop : op cfg.maxAttempts = Except.error eLast) :
    ∀ (k a ctx : Nat) (le : Option JsError), cfg.maxAttempts - a = k → 1 ≤ a →
      a ≤ cfg.maxAttempts →
      (∀ i, a ≤ i → i < cfg.maxAttempts → failsRetryably cfg (op i) = true) →
      executeAttemptsGo op cfg a ctx le = (Except.error (some eLast), cfg.maxAttempts) := by
  intro k
  induction k with
  | zero =>
    intro a ctx le hk h1 haN hfail
    have ha : a = cfg.maxAttempts := by omega
    subst ha
    rw [executeAttemptsGo]
    rw [dif_neg (by omega : ¬ cfg.maxAttempts < cfg.maxAttempts)]
    rw [hop]
    by_cases hr : isRetryableError eLast cfg.retryableErrors = true
    · simp only [hr, if_true]
      rw [executeAttemptsGo]
      rw [dif_pos (by omega : cfg.maxAttempts < cfg.maxAttempts + 1)]
    · have hr' : isRetryableError eLast cfg.retryableErrors = false := by
        simpa using hr
      simp only [hr', Bool.false_eq_true, if_false]
  | succ k ih =>
    intro a ctx le hk h1 haN hfail
    have haN' : a < cfg.maxAttempts := by omega
    have hfa := hfail a (le_refl a) haN'
    cases hopa : op a with
    | ok w =>
      rw [hopa] at hfa
      simp [failsRetryably] at hfa
    | error e =>
      rw [hopa] at hfa
      simp only [failsRetryably] at hfa
      rw [executeAttemptsGo]
      rw [dif_neg (by omega : ¬ cfg.maxAttempts < a)]
      rw [hopa]
      simp only [hfa, if_true]
      exact ih (a + 1) a (some e) (by omega) (by omega) (by omega)
        (fun i hi1 hi2 => hfail i (by omega) hi2)

/-- C6: the retry engine (a) returns success with `attempts = N` when the
operation fails retryably `N-1` times and then succeeds on attempt
`N ≤ maxAttempts`; (b) aborts with `attempts = 1` on a first-attempt
non-retryable failure, surfacing that error; (c) when every attempt fails
retryably, it consumes exactly `maxAttempts` attempts and surfaces the
last attempt's error verbatim. -/
theorem C6_retry_engine :
    (∀ (T : Type) (op : Nat → Except JsError T) (cfg : RetryConfig) (N : Nat) (v : T),
       1 ≤ N → N ≤ cfg.maxAttempts →
       (∀ i, 1 ≤ i → i < N → failsRetryably cfg (op i) = true) →
       op N = Except.ok v →
       executeWithRetry op cfg =
         { success := true, result := some v, error := none, attempts := N }) ∧
    (∀ (T : Type) (op : Nat → Except JsError T) (cfg : RetryConfig) (e : JsError),
       1 ≤ cfg.maxAttempts → op 1 = Except.error e →
       isRetryableError e cfg.retryableErrors = false →
       executeWithRetry op cfg =
         { success := false, result := none, error := some e, attempts := 1 }) ∧
    (∀ (T : Type) (op : Nat → Except JsError T) (cfg : RetryConfig) (eLast : JsError),
       1 ≤ cfg.maxAttempts →
       (∀ i, 1 ≤ i → i < cfg.maxAttempts → failsRetryably cfg (op i) = true) →
       op cfg.maxAttempts = Except.error eLast →
       executeWithRetry op cfg =
         { success := false, result := none, error := some eLast,
           attempts := cfg.maxAttempts }) := by
  refine ⟨?_, ?_, ?_⟩
  · intro T op cfg N v h1 h2 hfail hop
    unfold executeWithRetry
    rw [executeAttemptsGo_ok op cfg N v h2 hop (N - 1) 1 0 none (by omega) (le_refl 1) h1
      (fun i hi1 hi2 => hfail i hi1 hi2)]
  · intro T op cfg e hmax hop hnr
    unfold executeWithRetry
    have hgo : executeAttemptsGo op cfg 1 0 none = (Except.error (some e), 1) := by
      rw [executeAttemptsGo]
      rw [dif_neg (by omega : ¬ cfg.maxAttempts < 1)]
      rw [hop]
      simp only [hnr, Bool.false_eq_true, if_false]
    rw [hgo]
  · intro T op cfg eLast hmax hfail hop
    unfold executeWithRetry
    rw [executeAttemptsGo_exhaust op cfg eLast hop (cfg.maxAttempts - 1) 1 0 none
      (by omega) (le_refl 1) hmax (fun i hi1 hi2 => hfail i hi1 hi2)]

/-- C6 witness: the three scenarios at the default configuration
(`maxAttempts = 3`, network/API/gas retryable): two retryable network
failures then success on attempt 2; an immediate non-retryable
insufficient-balance failure; and three retryable failures whose last
message is surfaced verbatim. -/
theorem C6_retry_engine_witness :
    executeWithRetry
        (fun i => if i < 2 then Except.error (JsError.dex
          { code := SwapErrorCode.NETWORK_ERROR, message := "network down" })
          else Except.ok (42 : Nat))
        { maxAttempts := 3, backoffMs := 1000, backoffMultiplier := 2,
          retryableErrors := [SwapErrorCode.NETWORK_ERROR, SwapErrorCode.API_ERROR,
            SwapErrorCode.GAS_ESTIMATION_FAILED] } =
      { success := true, result := some 42, error := none, attempts := 2 } ∧
    executeWithRetry
        (fun _ => (Except.error (JsError.dex
          { code := SwapErrorCode.INSUFFICIENT_BALANCE, message := "no funds" }) :
          Except JsError Nat))
        { maxAttempts := 3, backoffMs := 1000, backoffMultiplier := 2,
          retryableErrors := [SwapErrorCode.NETWORK_ERROR, SwapErrorCode.API_ERROR,
            SwapErrorCode.GAS_ESTIMATION_FAILED] } =
      { success := false, result := none,
        error := some (JsError.dex
          { code := SwapErrorCode.INSUFFICIENT_BALANCE, message := "no funds" }),
        attempts := 1 } ∧
    executeWithRetry
        (fun i => (Except.error (JsError.dex
          { code := SwapErrorCode.NETWORK_ERROR,
            message := if 3 ≤ i then "last failure" else "earlier failure" }) :
          Except JsError Nat))
        { maxAttempts := 3, backoffMs := 1000, backoffMultiplier := 2,
          retryableErrors := [SwapErrorCode.NETWORK_ERROR, SwapErrorCode.API_ERROR,
            SwapErrorCode.GAS_ESTIMATION_FAILED] } =
      { success := false, result := none,
        error := some (JsError.dex
          { code := SwapErrorCode.NETWORK_ERROR, message := "last failure" }),
        attempts := 3 } := by
  refine ⟨?_, ?_, ?_⟩
  · exact C6_retry_engine.1 Nat _ _ 2 42 (by decide) (by decide)
      (by
        intro i h1 h2
        have hi : i = 1 := by omega
        subst hi
        decide)
      rfl
  · exact C6_retry_engine.2.1 Nat _ _ _ (by decide) rfl (by decide)
  · exact C6_retry_engine.2.2 Nat _ _ _ (by decide)
      (by
        intro i h1 h2
        have h2' : i < 3 := h2
        have hi : i = 1 ∨ i = 2 := by omega
        rcases hi with rfl | rfl <;> decide)
      rfl

/-! ### Circuit breaker theorems -/

/-- C5 counterexample: with the production configuration
`CircuitBreaker(5, 60000, 2)`, five failures open the breaker; after the
recovery window a successful trial moves it to HALF_OPEN and resets
`failureCount` to 0; the next failing call is executed while the breaker
is HALF_OPEN, yet the breaker stays HALF_OPEN instead of transitioning
back to OPEN (its failure count, 1, is below the threshold), refuting
"any failure while HalfOpen transitions the breaker back to Open". -/
theorem C5_circuit_breaker_counterexample :
    ([((0 : Nat), (Except.error (JsError.generic "boom") : Except JsError Unit)),
       (1, Except.error (JsError.generic "boom")),
       (2, Except.error (JsError.generic "boom")),
       (3, Except.error (JsError.generic "boom")),
       (4, Except.error (JsError.generic "boom")),
       (60004, Except.ok ())].foldl
        (fun cb p => (CircuitBreaker.execute cb p.1 p.2).2)
        ({} : CircuitBreaker)).state = CBState.HALF_OPEN ∧
    (CircuitBreaker.execute
        ([((0 : Nat), (Except.error (JsError.generic "boom") : Except JsError Unit)),
          (1, Except.error (JsError.generic "boom")),
          (2, Except.error (JsError.generic "boom")),
          (3, Except.error (JsError.generic "boom")),
          (4, Except.error (JsError.generic "boom")),
          (60004, Except.ok ())].foldl
           (fun cb p => (CircuitBreaker.execute cb p.1 p.2).2)
           ({} : CircuitBreaker))
        60005 (Except.error (JsError.generic "boom") : Except JsError Unit)).2.state =
      CBState.HALF_OPEN ∧
    CBState.HALF_OPEN ≠ CBState.OPEN := by
  refine ⟨?_, ?_, ?_⟩ <;> decide

/-- C5 amended: a failure executed while the breaker is HalfOpen moves it
back to Open only when the incremented failure count reaches
`failureThreshold` (which is the case for the first Half-Open trial after
opening, since `failureCount` still carries the value that opened the
breaker, but not after an intervening success has reset it to 0);
otherwise the breaker stays HalfOpen. A success while Closed resets
`failureCount` to 0. -/
theorem C5_circuit_breaker_amended :
    (∀ (T : Type) (cb : CircuitBreaker) (now : Nat) (e : JsError),
       cb.state = CBState.HALF_OPEN →
       (CircuitBreaker.execute cb now (Except.error e : Except JsError T)).2.state =
         (if cb.failureThreshold ≤ cb.failureCount + 1 then CBState.OPEN
          else CBState.HALF_OPEN)) ∧
    (∀ (T : Type) (cb : CircuitBreaker) (now : Nat) (v : T),
       cb.state = CBState.CLOSED →
       (CircuitBreaker.execute cb now (Except.ok v : Except JsError T)).2.failureCount = 0) := by
  constructor
  · intro T cb now e hs
    unfold CircuitBreaker.execute CircuitBreaker.runOp CircuitBreaker.onFailure
    rw [hs]
    by_cases hth : cb.failureThreshold ≤ cb.failureCount + 1
    · simp [hth]
    · simp [hth, hs]
  · intro T cb now v hs
    unfold CircuitBreaker.execute CircuitBreaker.runOp CircuitBreaker.onSuccess
    rw [hs]
    simp

/-- C5 amended witness: a Half-Open breaker with a reset failure count
stays Half-Open on failure (threshold 5 not reached), and a Closed
breaker's success resets the failure count. -/
theorem C5_circuit_breaker_amended_witness :
    (({ state := CBState.HALF_OPEN, successCount := 1 } : CircuitBreaker).state =
        CBState.HALF_OPEN ∧
      (CircuitBreaker.execute
          ({ state := CBState.HALF_OPEN, successCount := 1 } : CircuitBreaker)
          60005 (Except.error (JsError.generic "boom") : Except JsError Unit)).2.state =
        (if ({ state := CBState.HALF_OPEN, successCount := 1 } : CircuitBreaker).failureThreshold ≤
             ({ state := CBState.HALF_OPEN, successCount := 1 } : CircuitBreaker).failureCount + 1
         then CBState.OPEN else CBState.HALF_OPEN)) ∧
    (({ failureCount := 3 } : CircuitBreaker).state = CBState.CLOSED ∧
      (CircuitBreaker.execute ({ failureCount := 3 } : CircuitBreaker) 7
          (Except.ok (0 : Nat) : Except JsError Nat)).2.failureCount = 0) :=
  ⟨⟨rfl, C5_circuit_breaker_amended.1 Unit
      { state := CBState.HALF_OPEN, successCount := 1 } 60005
      (JsError.generic "boom") rfl⟩,
   ⟨rfl, C5_circuit_breaker_amended.2 Nat { failureCount := 3 } 7 0 rfl⟩⟩

/-! ### executeSwap theorems -/

theorem executeSwapE_ok_shape (env : SwapEnv) (req : SwapExecuteRequest)
    (r : SwapExecuteResponse) (h : executeSwapE env req = Except.ok r) :
    r.success = true ∧ r.transactionHash.isSome = true ∧ r.fromAmount = req.amount := by
  unfold executeSwapE at h
  repeat' split at h
  all_goals simp_all
  all_goals (subst h; simp)

/-- C9: `executeSwap` never throws: for every environment behavior and
request, a failing run returns a `success = false` response echoing the
requested amount with `toAmount = '0'` and carrying an error code and a
user-facing error message, while a successful run returns
`success = true` with a transaction hash (and the same `fromAmount`). -/
theorem C9_executeSwap_total (env : SwapEnv) (req : SwapExecuteRequest) :
    ((executeSwap env req).success = false →
      (executeSwap env req).fromAmount = req.amount ∧
      (executeSwap env req).toAmount = "0" ∧
      (executeSwap env req).errorCode.isSome = true ∧
      (executeSwap env req).errorMessage.isSome = true) ∧
    ((executeSwap env req).success = true →
      (executeSwap env req).transactionHash.isSome = true ∧
      (executeSwap env req).fromAmount = req.amount) := by
  unfold executeSwap
  cases hE : executeSwapE env req with
  | error e =>
    constructor
    · intro _
      exact ⟨rfl, rfl, rfl, rfl⟩
    · intro h
      simp at h
  | ok r =>
    obtain ⟨hs, hh, hf⟩ := executeSwapE_ok_shape env req r hE
    constructor
    · intro h
      rw [hs] at h
      simp at h
    · intro _
      exact ⟨hh, hf⟩


/-- C9 witness: the no-wallet environment yields the failure-shaped
response, and the all-green environment yields the success-shaped
response, at a concrete request. -/
theorem C9_executeSwap_total_witness :
    ((executeSwap envDemoNoWallet reqDemo).success = false ∧
      (executeSwap envDemoNoWallet reqDemo).toAmount = "0" ∧
      (executeSwap envDemoNoWallet reqDemo).errorCode.isSome = true) ∧
    ((executeSwap envDemoOk reqDemo).success = true ∧
      (executeSwap envDemoOk reqDemo).transactionHash.isSome = true) := by
  refine ⟨⟨rfl, ?_, ?_⟩, rfl, ?_⟩
  · exact ((C9_executeSwap_total envDemoNoWallet reqDemo).1 rfl).2.1
  · exact ((C9_executeSwap_total envDemoNoWallet reqDemo).1 rfl).2.2.1
  · exact ((C9_executeSwap_total envDemoOk reqDemo).2 rfl).1

/-! ### Pipeline step lemmas -/

theorem stepOnce_finished (ctx : VerifyCtx) (r : VerifyResponse) (σ : Store)
    (cs : List ExtCall) :
    stepOnce ctx (Phase.finished r, σ, cs) = (Phase.finished r, σ, cs) := by
  simp [stepOnce, stepVerify]

theorem stepOnce_eq {ctx : VerifyCtx} {ph : Phase} {σ : Store} {ph1 : Phase}
    {σ1 : Store} {cs1 : List ExtCall} (cs : List ExtCall)
    (h : stepVerify ctx ph σ = (ph1, σ1, cs1)) :
    stepOnce ctx (ph, σ, cs) = (ph1, σ1, cs ++ cs1) := by
  simp [stepOnce, h]

theorem stepOnce_eq0 {ctx : VerifyCtx} {ph : Phase} {σ : Store} {ph1 : Phase}
    {σ1 : Store} {cs1 : List ExtCall}
    (h : stepVerify ctx ph σ = (ph1, σ1, cs1)) :
    stepOnce ctx (ph, σ, []) = (ph1, σ1, cs1) := by
  simp [stepOnce, h]

theorem runVerify_of_step1 {ctx : VerifyCtx} {σ : Store} {r : VerifyResponse}
    {σ1 : Store} {cs1 : List ExtCall}
    (h1 : stepVerify ctx Phase.start σ = (Phase.finished r, σ1, cs1)) :
    runVerify ctx σ = (some r, σ1, cs1) := by
  unfold runVerify
  rw [stepOnce_eq0 h1, stepOnce_finished, stepOnce_finished, stepOnce_finished,
    stepOnce_finished, stepOnce_finished, stepOnce_finished, stepOnce_finished]

theorem runVerify_of_step2 {ctx : VerifyCtx} {σ : Store} {ph1 : Phase} {σ1 : Store}
    {cs1 : List ExtCall} {r : VerifyResponse} {σ2 : Store} {cs2 : List ExtCall}
    (h1 : stepVerify ctx Phase.start σ = (ph1, σ1, cs1))
    (h2 : stepVerify ctx ph1 σ1 = (Phase.finished r, σ2, cs2)) :
    runVerify ctx σ = (some r, σ2, cs1 ++ cs2) := by
  unfold runVerify
  rw [stepOnce_eq0 h1, stepOnce_eq cs1 h2, stepOnce_finished, stepOnce_finished,
    stepOnce_finished, stepOnce_finished, stepOnce_finished, stepOnce_finished]

theorem runVerify_of_step3 {ctx : VerifyCtx} {σ : Store} {ph1 ph2 : Phase}
    {σ1 σ2 : Store} {cs1 cs2 : List ExtCall} {r : VerifyResponse} {σ3 : Store}
    {cs3 : List ExtCall}
    (h1 : stepVerify ctx Phase.start σ = (ph1, σ1, cs1))
    (h2 : stepVerify ctx ph1 σ1 = (ph2, σ2, cs2))
    (h3 : stepVerify ctx ph2 σ2 = (Phase.finished r, σ3, cs3)) :
    runVerify ctx σ = (some r, σ3, cs1 ++ cs2 ++ cs3) := by
  unfold runVerify
  rw [stepOnce_eq0 h1, stepOnce_eq cs1 h2, stepOnce_eq (cs1 ++ cs2) h3,
    stepOnce_finished, stepOnce_finished, stepOnce_finished, stepOnce_finished,
    stepOnce_finished]

theorem runVerify_of_step6 {ctx : VerifyCtx} {σ : Store} {ph1 ph2 ph3 ph4 ph5 : Phase}
    {σ1 σ2 σ3 σ4 σ5 : Store} {cs1 cs2 cs3 cs4 cs5 : List ExtCall}
    {r : VerifyResponse} {σ6 : Store} {cs6 : List ExtCall}
    (h1 : stepVerify ctx Phase.start σ = (ph1, σ1, cs1))
    (h2 : stepVerify ctx ph1 σ1 = (ph2, σ2, cs2))
    (h3 : stepVerify ctx ph2 σ2 = (ph3, σ3, cs3))
    (h4 : stepVerify ctx ph3 σ3 = (ph4, σ4, cs4))
    (h5 : stepVerify ctx ph4 σ4 = (ph5, σ5, cs5))
    (h6 : stepVerify ctx ph5 σ5 = (Phase.finished r, σ6, cs6)) :
    runVerify ctx σ = (some r, σ6, cs1 ++ cs2 ++ cs3 ++ cs4 ++ cs5 ++ cs6) := by
  unfold runVerify
  rw [stepOnce_eq0 h1, stepOnce_eq cs1 h2, stepOnce_eq (cs1 ++ cs2) h3,
    stepOnce_eq (cs1 ++ cs2 ++ cs3) h4, stepOnce_eq (cs1 ++ cs2 ++ cs3 ++ cs4) h5,
    stepOnce_eq (cs1 ++ cs2 ++ cs3 ++ cs4 ++ cs5) h6, stepOnce_finished,
    stepOnce_finished]

theorem runVerify_of_step7 {ctx : VerifyCtx} {σ : Store} {ph1 ph2 ph3 ph4 ph5 ph6 : Phase}
    {σ1 σ2 σ3 σ4 σ5 σ6 : Store} {cs1 cs2 cs3 cs4 cs5 cs6 : List ExtCall}
    {r : VerifyResponse} {σ7 : Store} {cs7 : List ExtCall}
    (h1 : stepVerify ctx Phase.start σ = (ph1, σ1, cs1))
    (h2 : stepVerify ctx ph1 σ1 = (ph2, σ2, cs2))
    (h3 : stepVerify ctx ph2 σ2 = (ph3, σ3, cs3))
    (h4 : stepVerify ctx ph3 σ3 = (ph4, σ4, cs4))
    (h5 : stepVerify ctx ph4 σ4 = (ph5, σ5, cs5))
    (h6 : stepVerify ctx ph5 σ5 = (ph6, σ6, cs6))
    (h7 : stepVerify ctx ph6 σ6 = (Phase.finished r, σ7, cs7)) :
    runVerify ctx σ = (some r, σ7, cs1 ++ cs2 ++ cs3 ++ cs4 ++ cs5 ++ cs6 ++ cs7) := by
  unfold runVerify
  rw [stepOnce_eq0 h1, stepOnce_eq cs1 h2, stepOnce_eq (cs1 ++ cs2) h3,
    stepOnce_eq (cs1 ++ cs2 ++ cs3) h4, stepOnce_eq (cs1 ++ cs2 ++ cs3 ++ cs4) h5,
    stepOnce_eq (cs1 ++ cs2 ++ cs3 ++ cs4 ++ cs5) h6,
    stepOnce_eq (cs1 ++ cs2 ++ cs3 ++ cs4 ++ cs5 ++ cs6) h7, stepOnce_finished]

theorem runVerify_duplicate (ctx : VerifyCtx) (σ : Store)
    (h : checkNonceExists ctx.nonce σ = true) :
    runVerify ctx σ = (some VerifyResponse.duplicateNonce, σ, []) := by
  have h1 : stepVerify ctx Phase.start σ =
      (Phase.finished VerifyResponse.duplicateNonce, σ, []) := by
    simp [stepVerify, h]
  exact runVerify_of_step1 h1

theorem checkMintLimit_of_config (σ : Store) (cfg : TemplateConfig)
    (hcfg : mapGet σ.configs (templateConfigKey "token-mint") = some cfg) :
    checkMintLimit "token-mint" σ =
      ({ canMint := getCurrentMintCount "token-mint" σ < cfg.maxMintCount,
         remaining := cfg.maxMintCount - getCurrentMintCount "token-mint" σ,
         isCompleted := cfg.maxMintCount ≤ getCurrentMintCount "token-mint" σ,
         currentCount := getCurrentMintCount "token-mint" σ,
         maxCount := cfg.maxMintCount }, σ) := by
  have hhas : mapHas σ.configs (templateConfigKey "token-mint") = true := by
    rw [mapHas, hcfg]
    rfl
  have hinit : initializeTemplateConfig "token-mint" σ = σ := by
    unfold initializeTemplateConfig
    rw [if_pos hhas]
  unfold checkMintLimit
  rw [hinit]
  simp only [hcfg]

theorem stepVerify_start_mint (ctx : VerifyCtx) (σ : Store)
    (hT : ctx.templateId = "token-mint")
    (hn : checkNonceExists ctx.nonce σ = false) :
    stepVerify ctx Phase.start σ = (Phase.limitCheck, σ, []) := by
  simp [stepVerify, hn, hT]

theorem stepVerify_limit_reject (ctx : VerifyCtx) (σ : Store) (cfg : TemplateConfig)
    (hT : ctx.templateId = "token-mint")
    (hcfg : mapGet σ.configs (templateConfigKey "token-mint") = some cfg)
    (hfull : cfg.maxMintCount ≤ getCurrentMintCount "token-mint" σ) :
    stepVerify ctx Phase.limitCheck σ =
      (Phase.finished (VerifyResponse.mintLimitReached
        (getCurrentMintCount "token-mint" σ) cfg.maxMintCount), σ, []) := by
  have hnlt : ¬ (getCurrentMintCount "token-mint" σ < cfg.maxMintCount) :=
    Nat.not_lt.mpr hfull
  unfold stepVerify
  rw [hT, checkMintLimit_of_config σ cfg hcfg]
  simp [hnlt, hfull]

theorem stepVerify_limit_pass (ctx : VerifyCtx) (σ : Store) (cfg : TemplateConfig)
    (hT : ctx.templateId = "token-mint")
    (hcfg : mapGet σ.configs (templateConfigKey "token-mint") = some cfg)
    (hlt : getCurrentMintCount "token-mint" σ < cfg.maxMintCount) :
    stepVerify ctx Phase.limitCheck σ = (Phase.settle, σ, []) := by
  have hnle : ¬ (cfg.maxMintCount ≤ getCurrentMintCount "token-mint" σ) :=
    Nat.not_le.mpr hlt
  unfold stepVerify
  rw [hT, checkMintLimit_of_config σ cfg hcfg]
  simp [hlt, hnle]

theorem stepVerify_settle_ok (ctx : VerifyCtx) (σ : Store)
    (hset : ctx.settleResults.any (fun b => b) = true) :
    stepVerify ctx Phase.settle σ = (Phase.savePayment, σ, [ExtCall.settleProvider]) := by
  simp [stepVerify, hset]

theorem stepVerify_savePayment_mint (ctx : VerifyCtx) (σ : Store)
    (hT : ctx.templateId = "token-mint") :
    stepVerify ctx Phase.savePayment σ =
      (Phase.increment,
       { σ with payments :=
           mapSet σ.payments (paymentNonceKey ctx.nonce) (routePaymentRecord ctx) },
       []) := by
  simp [stepVerify, savePaymentRecord, routePaymentRecord, hT]

theorem stepVerify_savePayment_plain (ctx : VerifyCtx) (σ : Store)
    (hT : ctx.templateId ≠ "token-mint") :
    stepVerify ctx Phase.savePayment σ =
      (Phase.finished (VerifyResponse.ok ctx.nonce none),
       { σ with payments :=
           mapSet σ.payments (paymentNonceKey ctx.nonce) (routePaymentRecord ctx) },
       []) := by
  simp [stepVerify, savePaymentRecord, routePaymentRecord, hT]

theorem stepVerify_increment (ctx : VerifyCtx) (σ : Store) :
    stepVerify ctx Phase.increment σ =
      (Phase.doSwap,
       { σ with counts :=
           (mapSet σ.counts (mintCountKey ctx.templateId)
             ((mapGet σ.counts (mintCountKey ctx.templateId)).getD 0 + 1)) },
       []) := by
  simp [stepVerify, incrementMintCount]

theorem stepVerify_doSwap_wallet (ctx : VerifyCtx) (σ : Store)
    (hw : ctx.walletConfigured = true) :
    stepVerify ctx Phase.doSwap σ = (Phase.saveMint, σ, [ExtCall.dexSwap]) := by
  simp [stepVerify, hw]

theorem stepVerify_doSwap_noWallet (ctx : VerifyCtx) (σ : Store)
    (hw : ctx.walletConfigured = false) :
    stepVerify ctx Phase.doSwap σ =
      (Phase.finished (VerifyResponse.mintFailed "未配置接收钱包地址"), σ, []) := by
  simp [stepVerify, hw]

theorem stepVerify_saveMint_returned (ctx : VerifyCtx) (σ : Store)
    (resp : SwapExecuteResponse) (hsw : ctx.swapOutcome = SwapOutcome.returned resp) :
    stepVerify ctx Phase.saveMint σ =
      (Phase.finished (VerifyResponse.ok ctx.nonce
         (some (ctx.now, 1, resp.transactionHash))),
       { σ with mintRecords :=
           (mapSet σ.mintRecords (mintRecordsKey ctx.fromAddress)
             ((routeMintRecord ctx resp.transactionHash none ::
               (mapGet σ.mintRecords (mintRecordsKey ctx.fromAddress)).getD []).take 50)) },
       []) := by
  simp [stepVerify, hsw, saveMintRecord, routeMintRecord]

theorem stepVerify_saveMint_threw (ctx : VerifyCtx) (σ : Store) (msg : String)
    (hsw : ctx.swapOutcome = SwapOutcome.threw msg) :
    stepVerify ctx Phase.saveMint σ =
      (Phase.finished (VerifyResponse.mintFailed msg),
       { σ with mintRecords :=
           (mapSet σ.mintRecords (mintRecordsKey ctx.fromAddress)
             ((routeMintRecord ctx none (some msg) ::
               (mapGet σ.mintRecords (mintRecordsKey ctx.fromAddress)).getD []).take 50)) },
       []) := by
  simp [stepVerify, hsw, saveMintRecord, routeMintRecord]

theorem string_append_left_cancel (p a b : String) (h : p ++ a = p ++ b) : a = b := by
  have hd : (p ++ a).data = (p ++ b).data := congrArg String.data h
  rw [String.data_append, String.data_append] at hd
  have hd2 : a.data = b.data := List.append_cancel_left hd
  cases a
  cases b
  simp only at hd2
  rw [hd2]

theorem paymentNonceKey_ne (a b : String) (h : a ≠ b) :
    paymentNonceKey a ≠ paymentNonceKey b := by
  intro hk
  exact h (string_append_left_cancel _ _ _ hk)

theorem runVerify_plain_success (ctx : VerifyCtx) (σ : Store)
    (hT : ctx.templateId ≠ "token-mint")
    (hset : ctx.settleResults.any (fun b => b) = true)
    (hn : checkNonceExists ctx.nonce σ = false) :
    runVerify ctx σ =
      (some (VerifyResponse.ok ctx.nonce none),
       { σ with payments :=
           mapSet σ.payments (paymentNonceKey ctx.nonce) (routePaymentRecord ctx) },
       [ExtCall.settleProvider]) := by
  have h1 : stepVerify ctx Phase.start σ = (Phase.settle, σ, []) := by
    simp [stepVerify, hn, hT]
  have h2 := stepVerify_settle_ok ctx σ hset
  have h3 := stepVerify_savePayment_plain ctx σ hT
  have hrun := runVerify_of_step3 h1 h2 h3
  simpa using hrun

theorem runVerify_mint_step (ctx : VerifyCtx) (σ : Store) (cfg : TemplateConfig)
    (hT : ctx.templateId = "token-mint")
    (hset : ctx.settleResults.any (fun b => b) = true)
    (hn : checkNonceExists ctx.nonce σ = false)
    (hcfg : mapGet σ.configs (templateConfigKey "token-mint") = some cfg) :
    getCurrentMintCount "token-mint" (runVerify ctx σ).2.1 =
      (if getCurrentMintCount "token-mint" σ < cfg.maxMintCount
       then getCurrentMintCount "token-mint" σ + 1
       else getCurrentMintCount "token-mint" σ) ∧
    (runVerify ctx σ).2.1.configs = σ.configs ∧
    (∀ n', n' ≠ ctx.nonce →
      mapGet (runVerify ctx σ).2.1.payments (paymentNonceKey n') =
      mapGet σ.payments (paymentNonceKey n')) := by
  have h1 := stepVerify_start_mint ctx σ hT hn
  by_cases hlt : getCurrentMintCount "token-mint" σ < cfg.maxMintCount
  · -- quota available: full settlement path
    have h2 := stepVerify_limit_pass ctx σ cfg hT hcfg hlt
    have h3 := stepVerify_settle_ok ctx σ hset
    have h4 := stepVerify_savePayment_mint ctx σ hT
    set σp : Store :=
      { σ with payments :=
          mapSet σ.payments (paymentNonceKey ctx.nonce) (routePaymentRecord ctx) }
      with hσp
    have h5 := stepVerify_increment ctx σp
    set σi : Store :=
      { σp with counts :=
          (mapSet σp.counts (mintCountKey ctx.templateId)
            ((mapGet σp.counts (mintCountKey ctx.templateId)).getD 0 + 1)) }
      with hσi
    have hcounts : getCurrentMintCount "token-mint" σi =
        getCurrentMintCount "token-mint" σ + 1 := by
      rw [hσi, hσp]
      unfold getCurrentMintCount
      rw [hT]
      simp [mapGet_mapSet_self]
    have hconf : σi.configs = σ.configs := by rw [hσi, hσp]
    have hpay : ∀ n', n' ≠ ctx.nonce →
        mapGet σi.payments (paymentNonceKey n') =
        mapGet σ.payments (paymentNonceKey n') := by
      intro n' hne
      rw [hσi, hσp]
      exact mapGet_mapSet_ne _ _ _ _ (paymentNonceKey_ne n' ctx.nonce hne)
    cases hw : ctx.walletConfigured with
    | false =>
      have h6 := stepVerify_doSwap_noWallet ctx σi hw
      have hrun := runVerify_of_step6 h1 h2 h3 h4 h5 h6
      rw [hrun]
      exact ⟨by simpa [hlt] using hcounts, hconf, hpay⟩
    | true =>
      have h6 := stepVerify_doSwap_wallet ctx σi hw
      cases hsw : ctx.swapOutcome with
      | returned resp =>
        have h7 := stepVerify_saveMint_returned ctx σi resp hsw
        have hrun := runVerify_of_step7 h1 h2 h3 h4 h5 h6 h7
        rw [hrun]
        refine ⟨by simpa [hlt] using hcounts, hconf, ?_⟩
        intro n' hne
        exact hpay n' hne
      | threw msg =>
        have h7 := stepVerify_saveMint_threw ctx σi msg hsw
        have hrun := runVerify_of_step7 h1 h2 h3 h4 h5 h6 h7
        rw [hrun]
        refine ⟨by simpa [hlt] using hcounts, hconf, ?_⟩
        intro n' hne
        exact hpay n' hne
  · -- quota exhausted: rejected before settlement
    have hfull : cfg.maxMintCount ≤ getCurrentMintCount "token-mint" σ :=
      Nat.not_lt.mp hlt
    have h2 := stepVerify_limit_reject ctx σ cfg hT hcfg hfull
    have hrun := runVerify_of_step2 h1 h2
    rw [hrun]
    exact ⟨by simp [hlt], rfl, fun n' _ => rfl⟩

/-! ### Pipeline claims -/

/-- C3: a request whose nonce already has a payment record is rejected at
the very first gate with `DuplicateNonce`: the response is the duplicate
rejection, the pipeline makes no external call (in particular the
settlement provider is never invoked), and the store — including the mint
counter — is left untouched. -/
theorem C3_duplicate_nonce_first_gate (ctx : VerifyCtx) (σ : Store)
    (h : checkNonceExists ctx.nonce σ = true) :
    runVerify ctx σ = (some VerifyResponse.duplicateNonce, σ, []) :=
  runVerify_duplicate ctx σ h

/-- C3 witness: replaying nonce `"abc"` against a store already holding
its payment record. -/
theorem C3_duplicate_nonce_first_gate_witness :
    checkNonceExists (plainCtx "abc" 2).nonce storePaid = true ∧
    runVerify (plainCtx "abc" 2) storePaid =
      (some VerifyResponse.duplicateNonce, storePaid, []) :=
  ⟨by decide, C3_duplicate_nonce_first_gate (plainCtx "abc" 2) storePaid (by decide)⟩

/-- C8: when the `token-mint` quota is exhausted (`maxMintCount ≤
currentCount`), a fresh-nonce request is rejected with the quota error
carrying the current and max counts, no external call happens (the
settlement provider is never invoked), and the store is unchanged. -/
theorem C8_quota_exceeded_skips_settlement (ctx : VerifyCtx) (σ : Store)
    (cfg : TemplateConfig)
    (hT : ctx.templateId = "token-mint")
    (hn : checkNonceExists ctx.nonce σ = false)
    (hcfg : mapGet σ.configs (templateConfigKey "token-mint") = some cfg)
    (hfull : cfg.maxMintCount ≤ getCurrentMintCount "token-mint" σ) :
    runVerify ctx σ =
      (some (VerifyResponse.mintLimitReached (getCurrentMintCount "token-mint" σ)
        cfg.maxMintCount), σ, []) := by
  have h1 := stepVerify_start_mint ctx σ hT hn
  have h2 := stepVerify_limit_reject ctx σ cfg hT hcfg hfull
  simpa using runVerify_of_step2 h1 h2

/-- C8 witness: quota at 10/10 rejects with `currentCount = 10`,
`maxCount = 10` and zero external calls. -/
theorem C8_quota_exceeded_skips_settlement_witness :
    ((mintCtx "w8" 444).templateId = "token-mint" ∧
      checkNonceExists (mintCtx "w8" 444).nonce (storeMint 10 10) = false ∧
      (tmplConfig 10).maxMintCount ≤ getCurrentMintCount "token-mint" (storeMint 10 10)) ∧
    runVerify (mintCtx "w8" 444) (storeMint 10 10) =
      (some (VerifyResponse.mintLimitReached 10 10), storeMint 10 10, []) :=
  ⟨⟨rfl, by decide, by decide⟩,
   C8_quota_exceeded_skips_settlement (mintCtx "w8" 444) (storeMint 10 10)
     (tmplConfig 10) rfl (by decide) (by decide) (by decide)⟩

/-- C1 counterexample: two concurrent `token-mint` settlements with
distinct fresh nonces against a quota at 9 of 10, interleaved so both
quota pre-checks read 9 before either increment runs. Both requests
settle successfully and the final counter is 11, exceeding
`maxMintCount = 10` — refuting both the `currentCount ≤ maxMintCount`
invariant and the "final counter equals exactly M" property. -/
theorem C1_counterexample_concurrent_overmint :
    c1RaceFinal.ph1 =
      Phase.finished (VerifyResponse.ok "n1" (some (111, 1, some "0xswap"))) ∧
    c1RaceFinal.ph2 =
      Phase.finished (VerifyResponse.ok "n2" (some (222, 1, some "0xswap"))) ∧
    mapGet c1RaceFinal.store.counts (mintCountKey "token-mint") = some 11 ∧
    ¬ (11 ≤ 10) := by
  refine ⟨?_, ?_, ?_, ?_⟩ <;> decide

/-- C1 amended: the Redis `INCR` itself is atomic, but the quota check is
a separate earlier read, so the bound only holds without interleaving:
processing any batch of successfully-settling fresh-nonce `token-mint`
requests strictly one at a time drives the counter to
`min (start + K) maxMintCount` — in particular exactly `maxMintCount`
when `K` exceeds the remaining quota, never more. Under concurrent
interleavings the counter can exceed `maxMintCount` (see the
counterexample). -/
theorem C1_amended_sequential_quota (ctxs : List VerifyCtx) (σ : Store)
    (cfg : TemplateConfig)
    (hcfg : mapGet σ.configs (templateConfigKey "token-mint") = some cfg)
    (hle : getCurrentMintCount "token-mint" σ ≤ cfg.maxMintCount)
    (hall : ∀ ctx ∈ ctxs, ctx.templateId = "token-mint" ∧
        ctx.settleResults.any (fun b => b) = true ∧
        checkNonceExists ctx.nonce σ = false)
    (hnodup : (ctxs.map VerifyCtx.nonce).Nodup) :
    getCurrentMintCount "token-mint" (processAll ctxs σ) =
      min (getCurrentMintCount "token-mint" σ + ctxs.length) cfg.maxMintCount := by
  induction ctxs generalizing σ with
  | nil =>
    simp only [processAll, List.foldl_nil, List.length_nil, Nat.add_zero]
    omega
  | cons ctx tl ih =>
    obtain ⟨hT, hset, hn⟩ := hall ctx (List.mem_cons_self _ _)
    obtain ⟨hcnt, hconf, hpay⟩ := runVerify_mint_step ctx σ cfg hT hset hn hcfg
    have hstep : processAll (ctx :: tl) σ = processAll tl (runVerify ctx σ).2.1 := by
      simp [processAll]
    rw [hstep]
    have hcfg2 : mapGet (runVerify ctx σ).2.1.configs (templateConfigKey "token-mint") =
        some cfg := by
      rw [hconf]
      exact hcfg
    have hle2 : getCurrentMintCount "token-mint" (runVerify ctx σ).2.1 ≤
        cfg.maxMintCount := by
      rw [hcnt]
      split <;> omega
    have hall2 : ∀ c2 ∈ tl, c2.templateId = "token-mint" ∧
        c2.settleResults.any (fun b => b) = true ∧
        checkNonceExists c2.nonce (runVerify ctx σ).2.1 = false := by
      intro c2 hc2
      obtain ⟨ha, hb, hc⟩ := hall c2 (List.mem_cons_of_mem _ hc2)
      refine ⟨ha, hb, ?_⟩
      have hne : c2.nonce ≠ ctx.nonce := by
        intro heq
        have hnin := (List.nodup_cons.mp hnodup).1
        exact hnin (heq ▸ List.mem_map_of_mem VerifyCtx.nonce hc2)
      unfold checkNonceExists at hc ⊢
      rw [mapHas, hpay c2.nonce hne]
      rw [mapHas] at hc
      exact hc
    have hrec := ih (runVerify ctx σ).2.1 hcfg2 hle2 hall2 (List.nodup_cons.mp hnodup).2
    rw [hrec, hcnt]
    by_cases hc : getCurrentMintCount "token-mint" σ < cfg.maxMintCount <;>
      simp only [hc, if_true, if_false, List.length_cons] <;> omega

/-- C1 amended witness: three sequential settlements against a cap of 2
starting from 0 end at exactly `min (0 + 3) 2 = 2`. -/
theorem C1_amended_sequential_quota_witness :
    (getCurrentMintCount "token-mint" (storeMint 0 2) ≤ (tmplConfig 2).maxMintCount ∧
      ((List.map VerifyCtx.nonce [mintCtx "w1" 1, mintCtx "w2" 2, mintCtx "w3" 3]).Nodup)) ∧
    getCurrentMintCount "token-mint"
        (processAll [mintCtx "w1" 1, mintCtx "w2" 2, mintCtx "w3" 3] (storeMint 0 2)) =
      min (getCurrentMintCount "token-mint" (storeMint 0 2) + 3) (tmplConfig 2).maxMintCount ∧
    min (getCurrentMintCount "token-mint" (storeMint 0 2) + 3) (tmplConfig 2).maxMintCount = 2 :=
  ⟨⟨by decide, by decide⟩,
   C1_amended_sequential_quota [mintCtx "w1" 1, mintCtx "w2" 2, mintCtx "w3" 3]
     (storeMint 0 2) (tmplConfig 2) (by decide) (by decide)
     (by decide) (by decide),
   by decide⟩

/-- C2 counterexample: two concurrent settle calls with the same nonce
`"abc"`, interleaved so both nonce pre-checks run before either payment
write. Both callers receive a success response — zero callers (not
exactly one) receive `DuplicateNonce`, refuting the claim; the second
write silently overwrites the first record. -/
theorem C2_counterexample_concurrent_same_nonce :
    c2RaceFinal.ph1 = Phase.finished (VerifyResponse.ok "abc" none) ∧
    c2RaceFinal.ph2 = Phase.finished (VerifyResponse.ok "abc" none) ∧
    c2RaceFinal.store.payments.length = 1 := by
  refine ⟨?_, ?_, ?_⟩ <;> decide

/-- C2 amended: the nonce check and the payment write are check-then-set,
so the duplicate guarantee only holds without interleaving: after one
settle with nonce `n` completes successfully, a later settle with the
same `n` is rejected with `DuplicateNonce`, makes no external call, and
writes nothing — so exactly one payment record exists. Under concurrent
interleavings both calls can pass the check and neither receives
`DuplicateNonce` (see the counterexample). Shown here for a template
without the mint leg; the nonce gate is identical for both. -/
theorem C2_amended_sequential_dedup (ctx1 ctx2 : VerifyCtx) (σ : Store)
    (hT : ctx1.templateId ≠ "token-mint")
    (hset : ctx1.settleResults.any (fun b => b) = true)
    (hn : checkNonceExists ctx1.nonce σ = false)
    (hsame : ctx2.nonce = ctx1.nonce) :
    (runVerify ctx1 σ).1 = some (VerifyResponse.ok ctx1.nonce none) ∧
    checkNonceExists ctx2.nonce (runVerify ctx1 σ).2.1 = true ∧
    runVerify ctx2 (runVerify ctx1 σ).2.1 =
      (some VerifyResponse.duplicateNonce, (runVerify ctx1 σ).2.1, []) := by
  have hrun := runVerify_plain_success ctx1 σ hT hset hn
  have hdup : checkNonceExists ctx2.nonce (runVerify ctx1 σ).2.1 = true := by
    rw [hrun]
    unfold checkNonceExists
    rw [hsame]
    simp [mapHas, mapGet_mapSet_self]
  exact ⟨by rw [hrun], hdup, runVerify_duplicate ctx2 _ hdup⟩

/-- C2 amended witness: settle nonce `"abc"`, then settle it again. -/
theorem C2_amended_sequential_dedup_witness :
    ((plainCtx "abc" 1).templateId ≠ "token-mint" ∧
      checkNonceExists (plainCtx "abc" 1).nonce emptyStore = false) ∧
    runVerify (plainCtx "abc" 2) (runVerify (plainCtx "abc" 1) emptyStore).2.1 =
      (some VerifyResponse.duplicateNonce,
       (runVerify (plainCtx "abc" 1) emptyStore).2.1, []) :=
  ⟨⟨by decide, by decide⟩,
   (C2_amended_sequential_dedup (plainCtx "abc" 1) (plainCtx "abc" 2) emptyStore
     (by decide) (by decide) (by decide) rfl).2.2⟩

/-- C4: when the swap leg throws after a successful settlement, a mint
record IS persisted to the user's list (the auditability half of the
claim holds), but the persisted record's `status` is the literal
`'success'`, not the `'failed'` the route passed in `mintData` —
`saveMintRecord` spreads `mintData` before its own `status: 'success'`,
clobbering it. The error message survives. Evaluated on a concrete
swap-error run. -/
theorem C4_failed_swap_record_status :
    (runVerify (mintCtxThrew "n9" "DEX swap failed: no liquidity" 333)
        (storeMint 0 10)).1 =
      some (VerifyResponse.mintFailed "DEX swap failed: no liquidity") ∧
    mapGet (runVerify (mintCtxThrew "n9" "DEX swap failed: no liquidity" 333)
        (storeMint 0 10)).2.1.mintRecords (mintRecordsKey "0xalice") =
      some [routeMintRecord (mintCtxThrew "n9" "DEX swap failed: no liquidity" 333)
        none (some "DEX swap failed: no liquidity")] ∧
    (routeMintRecord (mintCtxThrew "n9" "DEX swap failed: no liquidity" 333)
        none (some "DEX swap failed: no liquidity")).status = "success" ∧
    ("success" : String) ≠ "failed" := by
  refine ⟨?_, ?_, ?_, ?_⟩ <;> decide
